import Mathlib

/-!
# The service harness `svc` and the example service `identsvc`

A shallow embedding of `svc/svc.go` (`initLogger`, `Command`, `run`, `envMap`)
and of `svc/example/example.go` (`something`), together with the parts of the
libraries they call (strings, unicode, multierr, zapcore, pflag, cobra, viper,
os), modelled after the behaviour of these libraries.

Conventions.

* A Go `string` is a Lean `String`: its sequence of runes (the strings are
  valid UTF-8).
* The case mappings of runes above ASCII come from a table of the Go library;
  the table is a parameter (`CaseTable`).
* An `error` is an `Option GoError`; `none` is `nil`. A panic is `none` in an
  `Option` result.
* A Go map is an association list with one entry per key, in the order in
  which the keys were first stored; a loop over a map follows that order.
* The process-wide logger is the list of the calls made on it.
* The values of flags and settings are kept as text.
-/

set_option autoImplicit false

deriving instance DecidableEq for Except

/-! ## unicode, strings -/

/-- The case mappings of `unicode.CaseRanges`, which `unicode.To` consults for
runes above `unicode.MaxASCII`. The table belongs to the Go standard library;
it is a parameter of everything that changes the case of a string. -/
structure CaseTable where
  /-- The result of `unicode.To(unicode.UpperCase, r)`. -/
  upper : Char → Char
  /-- The result of `unicode.To(unicode.LowerCase, r)`. -/
  lower : Char → Char

/-- A table without any mapping: only the ASCII letters change case. -/
def CaseTable.ascii : CaseTable := ⟨id, id⟩

/-- The rune-level `unicode.ToUpper`: ASCII letters are handled without the
table (`r -= 'a' - 'A'`), the other runes through it. -/
def unicode.ToUpper (t : CaseTable) (r : Char) : Char :=
  if r.toNat ≤ 0x7F then
    if 'a'.toNat ≤ r.toNat ∧ r.toNat ≤ 'z'.toNat then Char.ofNat (r.toNat - ('a'.toNat - 'A'.toNat))
    else r
  else t.upper r

/-- The rune-level `unicode.ToLower`. -/
def unicode.ToLower (t : CaseTable) (r : Char) : Char :=
  if r.toNat ≤ 0x7F then
    if 'A'.toNat ≤ r.toNat ∧ r.toNat ≤ 'Z'.toNat then Char.ofNat (r.toNat + ('a'.toNat - 'A'.toNat))
    else r
  else t.lower r

/-- The function `strings.ToUpper`: every rune mapped by `unicode.ToUpper`. -/
def strings.ToUpper (t : CaseTable) (s : String) : String :=
  ⟨s.data.map (unicode.ToUpper t)⟩

/-- The function `strings.ToLower`: every rune mapped by `unicode.ToLower`. -/
def strings.ToLower (t : CaseTable) (s : String) : String :=
  ⟨s.data.map (unicode.ToLower t)⟩

/-- The function `strings.HasPrefix`. -/
def strings.HasPrefix (s pre : String) : Bool :=
  pre.data.isPrefixOf s.data

/-- The function `strings.Contains`: `substr` starts at some position of `s`. -/
def strings.Contains (s substr : String) : Bool :=
  s.data.tails.any (fun rest => substr.data.isPrefixOf rest)

/-- The order `a <= b` of Go strings, on their runes: lexicographic (the
order of the bytes of valid UTF-8 is the order of the runes). -/
def strings.lessEq : List Char → List Char → Bool
  | [], _ => true
  | _ :: _, [] => false
  | a :: as, b :: bs =>
    if a.toNat < b.toNat then true
    else if b.toNat < a.toNat then false
    else strings.lessEq as bs

/-! ## errors, multierr -/

/-- An error value: one made by `fmt.Errorf`, identified by its message, or a
`multierr` aggregate, which holds the messages of the errors it was built
from (an aggregate is always flat). -/
inductive GoError where
  | errorString (msg : String)
  | multiError (errors : List String)
deriving DecidableEq, Repr

/-- The method `Error` of an error: its message; the messages of an aggregate
are joined with `; `. -/
def GoError.Error : GoError → String
  | .errorString msg => msg
  | .multiError errors => "; ".intercalate errors

/-- The function `multierr.Errors`: the errors an error is made of; none for
`nil`, the error itself when it is not an aggregate. -/
def multierr.Errors : Option GoError → List String
  | none => []
  | some (.errorString m) => [m]
  | some (.multiError es) => es

/-- The function `multierr.Append`: `nil` on either side gives the other
side; otherwise one flat aggregate of both. -/
def multierr.Append (left right : Option GoError) : Option GoError :=
  match left, right with
  | none, _ => right
  | _, none => left
  | some l, some r => some (.multiError (multierr.Errors (some l) ++ multierr.Errors (some r)))

/-! ## Maps -/

/-- Assignment `m[k] = x` on a map. -/
def GoMap.set {V : Type} : List (String × V) → String → V → List (String × V)
  | [], k, x => [(k, x)]
  | (k', x') :: m, k, x => if k' = k then (k, x) :: m else (k', x') :: GoMap.set m k x

/-- The keys of a map. -/
def GoMap.keys {V : Type} (m : List (String × V)) : List String :=
  m.map Prod.fst

/-! ## zap -/

/-- The type `zapcore.Level`. -/
inductive zapcore.Level where
  | DebugLevel | InfoLevel | WarnLevel | ErrorLevel | DPanicLevel | PanicLevel | FatalLevel
deriving DecidableEq, Repr

/-- The number of a level: `DebugLevel` is -1, `InfoLevel` 0, up to
`FatalLevel`, 5. -/
def zapcore.Level.toInt : zapcore.Level → Int
  | .DebugLevel => -1
  | .InfoLevel => 0
  | .WarnLevel => 1
  | .ErrorLevel => 2
  | .DPanicLevel => 3
  | .PanicLevel => 4
  | .FatalLevel => 5

/-- The method `zapcore.Level.Enabled`: `lvl >= l`. -/
def zapcore.Level.Enabled (l lvl : zapcore.Level) : Bool :=
  decide (l.toInt ≤ lvl.toInt)

/-- The method `zapcore.Level.unmarshalText`: the names of the levels, in
lower or upper case; the empty text is `info`. -/
def zapcore.Level.unmarshalText (text : String) : Option zapcore.Level :=
  if text = "debug" ∨ text = "DEBUG" then some .DebugLevel
  else if text = "info" ∨ text = "INFO" ∨ text = "" then some .InfoLevel
  else if text = "warn" ∨ text = "WARN" then some .WarnLevel
  else if text = "error" ∨ text = "ERROR" then some .ErrorLevel
  else if text = "dpanic" ∨ text = "DPANIC" then some .DPanicLevel
  else if text = "panic" ∨ text = "PANIC" then some .PanicLevel
  else if text = "fatal" ∨ text = "FATAL" then some .FatalLevel
  else none

/-- The method `zapcore.Level.Set` (`UnmarshalText`): the text as it is, then
in lower case; otherwise the error `unrecognized level`. -/
def zapcore.Level.Set (t : CaseTable) (s : String) : Except GoError zapcore.Level :=
  match zapcore.Level.unmarshalText s with
  | some l => .ok l
  | none =>
    match zapcore.Level.unmarshalText (strings.ToLower t s) with
    | some l => .ok l
    | none => .error (.errorString ("unrecognized level: \"" ++ s ++ "\""))

/-- The fields of `zap.Config` that `initLogger` sets. -/
structure zap.Config where
  Level : zapcore.Level
  /-- Whether `EncoderConfig` is the development one (else the production one). -/
  DevelopmentEncoder : Bool
  Encoding : String
deriving DecidableEq, Repr

/-- A logger, identified by the configuration it was built from. -/
structure zap.Logger where
  config : zap.Config
deriving DecidableEq, Repr

/-- A field of a log entry. -/
inductive zap.Field where
  | Error (err : GoError)
  | String (key val : String)
  | Any (key : String) (val : List (String × Option String))
deriving DecidableEq, Repr

/-- One call on the process-wide logger `zap.L()`. -/
structure zap.Entry where
  level : zapcore.Level
  msg : String
  fields : List zap.Field
deriving DecidableEq, Repr

/-- What a logger writes of the calls made on it: the entries whose level is
enabled at the level of the logger. -/
def zap.Logger.written (l : zap.Logger) (calls : List zap.Entry) : List zap.Entry :=
  calls.filter (fun e => l.config.Level.Enabled e.level)

/-! ## os -/

/-- An entry `name=value` of `os.Environ()` cut at its first `=`, as `envMap`
does with `strings.IndexByte(s, '=')`, `s[:ix]` and `s[ix+1:]`; `none` for an
entry without `=`. -/
def os.cutEntry (s : String) : Option (String × String) :=
  match s.data.span (fun c => c != '=') with
  | (name, _ :: value) => some (⟨name⟩, ⟨value⟩)
  | (_, []) => none

/-- The function `os.LookupEnv` over the entries of the environment: the
value of the first entry with that name; no name is empty. -/
def os.LookupEnv (environ : List String) (key : String) : Option String :=
  if key = "" then none
  else (environ.filterMap os.cutEntry).lookup key

/-! ## pflag -/

/-- The type `pflag.Flag`, for a flag made by `FlagSet.String`. -/
structure pflag.Flag where
  Name : String
  Usage : String
  /-- The value as set: the default until the flag is passed. -/
  Value : String
  DefValue : String
  /-- Whether the user passed the flag. -/
  Changed : Bool
deriving DecidableEq, Repr

/-- The method `FlagSet.Lookup`. -/
def pflag.FlagSet.Lookup (f : List pflag.Flag) (name : String) : Option pflag.Flag :=
  f.find? (fun flag => flag.Name = name)

/-- The method `FlagSet.AddFlag`; `none` stands for its panic on a name that
is already defined. -/
def pflag.FlagSet.AddFlag (f : List pflag.Flag) (flag : pflag.Flag) : Option (List pflag.Flag) :=
  match pflag.FlagSet.Lookup f flag.Name with
  | some _ => none
  | none => some (f ++ [flag])

/-- The method `FlagSet.String(name, value, usage)`, which goes through
`StringVarP` to `AddFlag` with a new flag whose value is its default. -/
def pflag.FlagSet.StringVarP (f : List pflag.Flag) (name value usage : String) :
    Option (List pflag.Flag) :=
  pflag.FlagSet.AddFlag f
    { Name := name, Usage := usage, Value := value, DefValue := value, Changed := false }

/-- The flags in the order in which `FlagSet.VisitAll` visits them: sorted by
name (`SortFlags` is on). -/
def pflag.FlagSet.VisitAll (f : List pflag.Flag) : List pflag.Flag :=
  f.insertionSort (fun a b => strings.lessEq a.Name.data b.Name.data = true)

/-- What `FlagSet.Set(name, value)` does to one flag of the set: the flag of
that name takes the value and is marked as changed. -/
def pflag.Flag.assign (flag : pflag.Flag) (name value : String) : pflag.Flag :=
  if flag.Name = name then { flag with Value := value, Changed := true } else flag

/-- The method `FlagSet.Set`: the flag takes the value and is marked as
changed; an unknown name is an error. -/
def pflag.FlagSet.Set (f : List pflag.Flag) (name value : String) :
    Except GoError (List pflag.Flag) :=
  match pflag.FlagSet.Lookup f name with
  | none => .error (.errorString ("no such flag -" ++ name))
  | some _ => .ok (f.map (fun flag => flag.assign name value))

/-- The method `FlagSet.Parse`, on the flags of the command line read as
pairs of a name and a value, in their order: a name that is not defined is
an error, a flag that is defined is set. -/
def pflag.FlagSet.Parse (f : List pflag.Flag) :
    List (String × String) → Except GoError (List pflag.Flag)
  | [] => .ok f
  | (name, value) :: rest =>
    match pflag.FlagSet.Lookup f name with
    | none => .error (.errorString ("unknown flag: --" ++ name))
    | some _ =>
      match pflag.FlagSet.Set f name value with
      | .error err => .error err
      | .ok f' => pflag.FlagSet.Parse f' rest

/-! ## strconv, cobra -/

/-- The function `strconv.ParseBool`. -/
def strconv.ParseBool (s : String) : Option Bool :=
  if s = "1" ∨ s = "t" ∨ s = "T" ∨ s = "TRUE" ∨ s = "true" ∨ s = "True" then some true
  else if s = "0" ∨ s = "f" ∨ s = "F" ∨ s = "FALSE" ∨ s = "false" ∨ s = "False" then some false
  else none

/-- The flag `help` that cobra adds to a command (`InitDefaultHelpFlag`) before
it parses the command line, when the command defines no flag of that name.
The command of `Command` has no `Use`, hence the usage. -/
def cobra.helpFlag : pflag.Flag :=
  { Name := "help", Usage := "help for this command", Value := "false", DefValue := "false",
    Changed := false }

/-- The function `cobra.NoArgs`. -/
def cobra.NoArgs (args : List String) : Option GoError :=
  match args with
  | [] => none
  | a :: _ => some (.errorString ("unknown command \"" ++ a ++ "\""))

/-! ## viper -/

/-- The state of the process-wide `viper.Viper` that the harness uses: the
environment prefix, whether `AutomaticEnv` was called, and the bound flags.
Nothing in the program registers an override, a configuration file, a
key/value store, a default or an alias; these layers are empty. The key
delimiter is the default one, `.`. -/
structure viper.Viper where
  envPrefix : String
  automaticEnvApplied : Bool
  pflags : List (String × pflag.Flag)
deriving DecidableEq, Repr

/-- The function `viper.New`. -/
def viper.New : viper.Viper :=
  { envPrefix := "", automaticEnvApplied := false, pflags := [] }

/-- The method `SetEnvPrefix`. -/
def viper.SetEnvPrefix (v : viper.Viper) (s : String) : viper.Viper :=
  if s ≠ "" then { v with envPrefix := s } else v

/-- The method `AutomaticEnv`. -/
def viper.AutomaticEnv (v : viper.Viper) : viper.Viper :=
  { v with automaticEnvApplied := true }

/-- The method `mergeWithEnvPrefix`. -/
def viper.mergeWithEnvPrefix (t : CaseTable) (v : viper.Viper) (s : String) : String :=
  if v.envPrefix ≠ "" then strings.ToUpper t (v.envPrefix ++ "_" ++ s)
  else strings.ToUpper t s

/-- The method `getEnv`: `AllowEmptyEnv` is off, so a variable that is set to
the empty string counts as not set. -/
def viper.getEnv (environ : List String) (key : String) : Option String :=
  match os.LookupEnv environ key with
  | some val => if val ≠ "" then some val else none
  | none => none

/-- The method `BindPFlag`: the flag is stored under the key in lower case;
a nil flag is an error. -/
def viper.BindPFlag (t : CaseTable) (v : viper.Viper) (key : String)
    (flag : Option pflag.Flag) : viper.Viper × Option GoError :=
  match flag with
  | none => (v, some (.errorString ("flag for \"" ++ key ++ "\" is nil")))
  | some f => ({ v with pflags := GoMap.set v.pflags (strings.ToLower t key) f }, none)

/-- The parents of a key, read from the runes of the key after `before`:
for every key delimiter, what stands in front of it. -/
def viper.parentKeysFrom (before : List Char) : List Char → List String
  | [] => []
  | c :: rest =>
    if c = '.' then ⟨before⟩ :: viper.parentKeysFrom (before ++ [c]) rest
    else viper.parentKeysFrom (before ++ [c]) rest

/-- The parent keys of a key, `strings.Join(path[0:i], v.keyDelim)` for the
`path` that `strings.Split(key, v.keyDelim)` gives and `0 < i < len(path)`:
for `a.b.c`, the keys `a` and `a.b`; none for a key without a delimiter. -/
def viper.parentKeys (key : String) : List String :=
  viper.parentKeysFrom [] key.data

/-- The method `isPathShadowedInFlatMap` on the bound flags: a parent of the
key is itself bound to a flag. -/
def viper.isPathShadowedInFlatMap (v : viper.Viper) (lcaseKey : String) : Bool :=
  (viper.parentKeys lcaseKey).any (fun parentKey => (v.pflags.lookup parentKey).isSome)

/-- The method `isPathShadowedInAutoEnv`: a parent of the key has a value in
the environment. -/
def viper.isPathShadowedInAutoEnv (t : CaseTable) (v : viper.Viper) (environ : List String)
    (lcaseKey : String) : Bool :=
  (viper.parentKeys lcaseKey).any (fun parentKey =>
    (viper.getEnv environ (viper.mergeWithEnvPrefix t v parentKey)).isSome)

/-- The method `find`, for a key in lower case: a changed flag, then the
environment, then (when `flagDefault`) the value of an unchanged flag; after
each layer, nil for a nested key that the layer shadows with a parent key. -/
def viper.find (t : CaseTable) (v : viper.Viper) (environ : List String)
    (lcaseKey : String) (flagDefault : Bool) : Option String :=
  let flag := v.pflags.lookup lcaseKey
  match flag.filter (fun f => f.Changed) with
  | some f => some f.Value
  | none =>
    if viper.isPathShadowedInFlatMap v lcaseKey then none
    else
      let env :=
        if v.automaticEnvApplied then
          viper.getEnv environ (viper.mergeWithEnvPrefix t v lcaseKey)
        else none
      match env with
      | some val => some val
      | none =>
        if v.automaticEnvApplied && viper.isPathShadowedInAutoEnv t v environ lcaseKey then none
        else if flagDefault then flag.map (fun f => f.Value)
        else none

/-- The function `viper.Get`. -/
def viper.Get (t : CaseTable) (v : viper.Viper) (environ : List String) (key : String) :
    Option String :=
  viper.find t v environ (strings.ToLower t key) true

/-- The function `viper.IsSet`. -/
def viper.IsSet (t : CaseTable) (v : viper.Viper) (environ : List String) (key : String) :
    Bool :=
  (viper.find t v environ (strings.ToLower t key) false).isSome

/-- The function `viper.AllKeys` (`mergeFlatMap` over the bound flags): the
keys of the flags, without a key that has a parent among the keys taken
before it. -/
def viper.AllKeys (v : viper.Viper) : List String :=
  (GoMap.keys v.pflags).foldl
    (fun shadow k =>
      if (viper.parentKeys k).any (fun parentKey => decide (parentKey ∈ shadow)) then shadow
      else shadow ++ [k])
    []

/-- The function `viper.AllSettings`: every key with the value `Get` gives
it, without the keys whose value is nil. The settings are kept flat: the
entry of a key `a.b` stands for the entry `b` of the map under `a`. -/
def viper.AllSettings (t : CaseTable) (v : viper.Viper) (environ : List String) :
    List (String × String) :=
  (viper.AllKeys v).foldl
    (fun m k =>
      match viper.Get t v environ k with
      | none => m
      | some value => GoMap.set m k value)
    []

/-- The function `viper.Unmarshal`: the settings decoded into the target.
`decode` is the decoding of `mapstructure` for the type of the target; it
gives the target as written and the error. -/
def viper.Unmarshal {τ : Type} (decode : List (String × String) → τ → τ × Option GoError)
    (t : CaseTable) (v : viper.Viper) (environ : List String) (rawVal : τ) :
    τ × Option GoError :=
  decode (viper.AllSettings t v environ) rawVal

/-! ## svc: the logger -/

/-- The type `globalConfig`. -/
structure svc.globalConfig where
  LogEncoding : String
  LogLevel : String
deriving DecidableEq, Repr

/-- The function `initLogger`. `Build` is `zap.Config.Build`. The level is
parsed first, then the encoding is selected, then the logger is built. -/
def svc.initLogger (t : CaseTable) (Build : zap.Config → Except GoError zap.Logger)
    (sc : svc.globalConfig) : Except GoError zap.Logger :=
  match zapcore.Level.Set t sc.LogLevel with
  | .error err => .error err
  | .ok ll =>
    if sc.LogEncoding = "console" then
      Build { Level := ll, DevelopmentEncoder := true, Encoding := "console" }
    else if sc.LogEncoding = "json" then
      Build { Level := ll, DevelopmentEncoder := false, Encoding := "json" }
    else
      .error (.errorString
        ("Unknown log_encoding: '" ++ sc.LogEncoding ++ "' must be json or console"))

/-! ## svc: environment keys -/

/-- The expression `strings.ToUpper(s.Name())`, named `envPrefix` in `Command`
and in `run`. -/
def svc.envPrefix (t : CaseTable) (name : String) : String :=
  strings.ToUpper t name

/-- The expression `strings.ToUpper(envPrefix + "_" + name)`, named `envKey`
in `Command` (for a flag name) and in `run` (for a configuration key). -/
def svc.envKey (t : CaseTable) (envPrefix name : String) : String :=
  strings.ToUpper t (envPrefix ++ "_" ++ name)

/-! ## svc: the harness -/

/-- The interface `Service`, for a service whose configuration has type `σ`.
`Flags` gives the flag set with the flags of the service added (`none`: it
fails). `Configure` is what `viper.Unmarshal(s.Configure())` does to the
configuration: the settings decoded into it, with the decoding error. -/
structure svc.Service (σ : Type) where
  Name : String
  Flags : List pflag.Flag → Option (List pflag.Flag)
  Configure : List (String × String) → σ → σ × Option GoError
  ValidateConfig : σ → Option GoError
  Run : σ → Option GoError

/-- The closure that `Command` passes to `flags.VisitAll`: the usage of the
flag gets the name of its environment variable appended. -/
def svc.Command.annotate (t : CaseTable) (envPrefix : String) (f : pflag.Flag) : pflag.Flag :=
  let envKey := svc.envKey t envPrefix f.Name
  let usage := if f.Usage ≠ "" then f.Usage ++ " " else f.Usage
  { f with Usage := usage ++ "$\x7b" ++ envKey ++ "\x7d" }

/-- The function `Command`: the state of viper and the flags of the command
it returns; `none` stands for a panic. -/
def svc.Command {σ : Type} (t : CaseTable) (s : svc.Service σ) :
    Option (viper.Viper × List pflag.Flag) :=
  let v := viper.AutomaticEnv (viper.SetEnvPrefix viper.New s.Name)
  match s.Flags [] with
  | none => none
  | some flags =>
    match pflag.FlagSet.StringVarP flags "log_level" "debug" "" with
    | none => none
    | some flags =>
      match pflag.FlagSet.StringVarP flags "log_encoding" "console" "" with
      | none => none
      | some flags =>
        let envPrefix := svc.envPrefix t s.Name
        some (v, flags.map (svc.Command.annotate t envPrefix))

/-- The closure that `PreRunE` passes to `VisitAll`: the flag is bound in
viper under its name; an error of the binding is appended to `errs`. -/
def svc.Command.PreRunE.visit (t : CaseTable) (flags : List pflag.Flag)
    (acc : viper.Viper × Option GoError) (f : pflag.Flag) : viper.Viper × Option GoError :=
  match viper.BindPFlag t acc.1 f.Name (pflag.FlagSet.Lookup flags f.Name) with
  | (v', none) => (v', acc.2)
  | (v', some err) =>
    (v', multierr.Append acc.2
      (some (.errorString ("error binding flag: '" ++ f.Name ++ "': " ++ err.Error))))

/-- The field `PreRunE` of the command: the state of viper after the visit
of every flag, and `errs`. -/
def svc.Command.PreRunE (t : CaseTable) (v : viper.Viper) (flags : List pflag.Flag) :
    viper.Viper × Option GoError :=
  (pflag.FlagSet.VisitAll flags).foldl (svc.Command.PreRunE.visit t flags) (v, none)

/-- One round of the loop of `envMap`: an entry with a `=` is stored under
its name, another entry is skipped. -/
def svc.envMap.put (rv : List (String × String)) (s : String) : List (String × String) :=
  match os.cutEntry s with
  | some (name, value) => GoMap.set rv name value
  | none => rv

/-- The function `envMap`, on the entries of `os.Environ()`. -/
def svc.envMap (environ : List String) : List (String × String) :=
  environ.foldl svc.envMap.put []

/-- The type `globalConfig` as `mapstructure` decodes the settings into it:
each field takes the value under its key when there is one. -/
def svc.globalConfig.decode (settings : List (String × String)) (gc : svc.globalConfig) :
    svc.globalConfig × Option GoError :=
  ({ LogEncoding := (settings.lookup "log_encoding").getD gc.LogEncoding,
     LogLevel := (settings.lookup "log_level").getD gc.LogLevel }, none)

/-- The marker that `run` stores for a secret. -/
def svc.secretMask : String := "%%%_SECRET_MASKED_%%%"

/-- One round of the loop of `run` over `viper.AllKeys()`, on the pair of
`configDump` and `validEnv`. -/
def svc.run.keyStep (t : CaseTable) (envPrefix : String) (v : viper.Viper)
    (environ : List String)
    (acc : List (String × Option String) × List (String × Bool)) (k : String) :
    List (String × Option String) × List (String × Bool) :=
  let envKey := svc.envKey t envPrefix k
  let validEnv := GoMap.set acc.2 envKey true
  let val := viper.Get t v environ k
  if strings.Contains (strings.ToLower t k) "secret" then
    (GoMap.set acc.1 k (some svc.secretMask), validEnv)
  else if !viper.IsSet t v environ k then
    (acc.1, validEnv)
  else
    (GoMap.set acc.1 k val, validEnv)

/-- The entry that one round of the loop of `run` leaves in `configDump` for
its key `k`, given the entry before the round. -/
def svc.run.entry (t : CaseTable) (v : viper.Viper) (environ : List String) (k : String)
    (before : Option (Option String)) : Option (Option String) :=
  if strings.Contains (strings.ToLower t k) "secret" then some (some svc.secretMask)
  else if viper.IsSet t v environ k then some (viper.Get t v environ k)
  else before

/-- The map `configDump` of `run` after its loop over the keys. -/
def svc.run.configDump (t : CaseTable) (envPrefix : String) (v : viper.Viper)
    (environ : List String) : List (String × Option String) :=
  ((viper.AllKeys v).foldl (svc.run.keyStep t envPrefix v environ) ([], [])).1

/-- The map `validEnv` of `run` after its loop over the keys. -/
def svc.run.validEnv (t : CaseTable) (envPrefix : String) (v : viper.Viper)
    (environ : List String) : List (String × Bool) :=
  ((viper.AllKeys v).foldl (svc.run.keyStep t envPrefix v environ) ([], [])).2

/-- The call `zap.L().Warn("Unknown environment variable detected!", ...)` of
`run` for the environment variable `k`. -/
def svc.run.warning (k : String) : zap.Entry :=
  { level := .WarnLevel, msg := "Unknown environment variable detected!",
    fields := [.String "env_name" k] }

/-- The loop of `run` over `envMap()`: one warning for every name that has
the prefix and is not in `validEnv`. -/
def svc.run.audit (envPrefix : String) (validEnv : List (String × Bool))
    (env : List (String × String)) : List zap.Entry :=
  env.filterMap (fun kv =>
    if !strings.HasPrefix kv.1 envPrefix then none
    else if (validEnv.lookup kv.1).getD false then none
    else some (svc.run.warning kv.1))

/-- What a call of `run` did: the error it returned, the calls it made on the
logger, and the configuration with which it invoked `s.Run` (`none`: it did
not invoke it). -/
structure svc.RunResult (σ : Type) where
  err : Option GoError
  log : List zap.Entry
  served : Option σ

/-- The call `zap.L().Error("Failed to load service configuration", ...)` of
`run`, made when the decoding of the service configuration gives an error;
`run` goes on after it. -/
def svc.run.configureLog (err : Option GoError) : List zap.Entry :=
  match err with
  | some err =>
    [{ level := .ErrorLevel, msg := "Failed to load service configuration",
       fields := [.Error err] }]
  | none => []

/-- The call `zap.L().Info("Starting service", ...)` of `run`. -/
def svc.run.startLog (name : String) (configDump : List (String × Option String)) : zap.Entry :=
  { level := .InfoLevel, msg := "Starting service",
    fields := [.String "version" "0.1.0", .String "service" name, .Any "config" configDump] }

/-- The function `run`, for the service `s` with configuration `c`, the state
`v` of viper and the environment `environ`. -/
def svc.run {σ : Type} (t : CaseTable) (Build : zap.Config → Except GoError zap.Logger)
    (s : svc.Service σ) (c : σ) (v : viper.Viper) (environ : List String) :
    svc.RunResult σ :=
  match viper.Unmarshal svc.globalConfig.decode t v environ { LogEncoding := "", LogLevel := "" } with
  | (_, some err) =>
    { err := some err, served := none,
      log := [{ level := .ErrorLevel, msg := "Failed to load base configuration",
                fields := [.Error err] }] }
  | (gc, none) =>
    match svc.initLogger t Build gc with
    | .error err =>
      { err := some err, served := none,
        log := [{ level := .ErrorLevel, msg := "Failed to configure logging",
                  fields := [.Error err] }] }
    | .ok _ =>
      let loaded := viper.Unmarshal s.Configure t v environ c
      let log₁ := svc.run.configureLog loaded.2
      match s.ValidateConfig loaded.1 with
      | some err => { err := some err, served := none, log := log₁ }
      | none =>
        let envPrefix := svc.envPrefix t s.Name
        let configDump := svc.run.configDump t envPrefix v environ
        let validEnv := svc.run.validEnv t envPrefix v environ
        let log₂ := svc.run.audit envPrefix validEnv (svc.envMap environ)
        let log₃ := [svc.run.startLog s.Name configDump]
        { err := s.Run loaded.1, served := some loaded.1, log := log₁ ++ log₂ ++ log₃ }

/-- The field `RunE` of the command. -/
def svc.Command.RunE {σ : Type} (t : CaseTable)
    (Build : zap.Config → Except GoError zap.Logger)
    (s : svc.Service σ) (c : σ) (v : viper.Viper) (environ : List String)
    (args : List String) : svc.RunResult σ :=
  match cobra.NoArgs args with
  | some err => { err := some err, served := none, log := [] }
  | none => svc.run t Build s c v environ

/-- The state of viper when cobra, executing the command of `Command` on the
flags `passed` of the command line, reaches `RunE`: cobra adds its flag
`help`, parses the command line, stops when `help` was asked for, and calls
`PreRunE`, which binds every flag. `none`: `RunE` is not reached (`Command`
panics, the service defines a flag `help` of its own, which cobra refuses as
not boolean, the command line does not parse, help is asked for, or
`PreRunE` returns an error). -/
def svc.Command.bound {σ : Type} (t : CaseTable) (s : svc.Service σ)
    (passed : List (String × String)) : Option viper.Viper :=
  match svc.Command t s with
  | none => none
  | some (v, declared) =>
    match pflag.FlagSet.Lookup declared "help" with
    | some _ => none
    | none =>
      match pflag.FlagSet.Parse (declared ++ [cobra.helpFlag]) passed with
      | .error _ => none
      | .ok flags =>
        match (pflag.FlagSet.Lookup flags "help").bind (fun h => strconv.ParseBool h.Value) with
        | some false =>
          match svc.Command.PreRunE t v flags with
          | (_, some _) => none
          | (v, none) => some v
        | _ => none

/-! ## identsvc: the example service -/

/-- The type `conf` of the example service. -/
structure identsvc.conf where
  ListenAddress : String
  ListenTLSCert : String
  ListenTLSKey : String
deriving DecidableEq, Repr

/-- The method `something.ValidateConfig`: both rules are evaluated, each
failure is appended to the aggregate. -/
def identsvc.something.ValidateConfig (c : identsvc.conf) : Option GoError :=
  let errs : Option GoError := none
  let errs :=
    if c.ListenTLSCert = "" then
      multierr.Append errs (some (.errorString "listen_tls_cert is empty"))
    else errs
  let errs :=
    if c.ListenTLSKey = "" then
      multierr.Append errs (some (.errorString "listen_tls_key is empty"))
    else errs
  errs

/-- What the handler needs of an `http.Request`. -/
structure http.Request where
  Method : String
  ProtoMajor : Int
  ProtoMinor : Int
  /-- The headers, under their canonical names. -/
  Header : List (String × List String)
deriving DecidableEq, Repr

/-- The method `http.Header.Get`: the first value of a header, or `""`. -/
def http.Header.Get (h : List (String × List String)) (key : String) : String :=
  match h.lookup key with
  | some (v :: _) => v
  | _ => ""

/-- What a handler did with a request. -/
inductive http.Effect where
  /-- The call `rpcServer.ServeHTTP(w, r)`. -/
  | rpcServeHTTP (r : http.Request)
  /-- The call `w.Write(body)`. -/
  | write (body : String)
deriving DecidableEq, Repr

/-- The handler that `something.Run` passes to `http.Serve`. -/
def identsvc.something.Run.handler (r : http.Request) : List http.Effect :=
  if r.ProtoMajor = 2
      ∧ strings.HasPrefix (http.Header.Get r.Header "Content-Type") "application/grpc" = true then
    [.rpcServeHTTP r]
  else
    [.write "hello world"]

/-- The method `something.Name`. -/
def identsvc.something.Name : String := "ident"

/-- The method `something.Flags`. -/
def identsvc.something.Flags (f : List pflag.Flag) : Option (List pflag.Flag) :=
  match pflag.FlagSet.StringVarP f "listen_address" "127.0.0.1:6000" "" with
  | none => none
  | some f =>
    match pflag.FlagSet.StringVarP f "listen_tls_cert" "" "" with
    | none => none
    | some f => pflag.FlagSet.StringVarP f "listen_tls_key" "" ""

/-- The method `something.Configure` under `viper.Unmarshal`: each field of
`conf` takes the value under its `mapstructure` key when there is one. -/
def identsvc.something.Configure (settings : List (String × String)) (c : identsvc.conf) :
    identsvc.conf × Option GoError :=
  ({ ListenAddress := (settings.lookup "listen_address").getD c.ListenAddress,
     ListenTLSCert := (settings.lookup "listen_tls_cert").getD c.ListenTLSCert,
     ListenTLSKey := (settings.lookup "listen_tls_key").getD c.ListenTLSKey }, none)

/-- What `something.Run` gets from the network and the file system: the
error of `net.Listen`, of `tls.LoadX509KeyPair`, and the one `http.Serve`
returns. -/
structure identsvc.World where
  Listen : String → Option GoError
  LoadX509KeyPair : String → String → Option GoError
  Serve : Option GoError

/-- The method `something.Run`, up to the error it returns. -/
def identsvc.something.Run (w : identsvc.World) (c : identsvc.conf) : Option GoError :=
  match w.Listen c.ListenAddress with
  | some err => some err
  | none =>
    match w.LoadX509KeyPair c.ListenTLSCert c.ListenTLSKey with
    | some err => some err
    | none => w.Serve

/-- The function `New`. -/
def identsvc.New (w : identsvc.World) : svc.Service identsvc.conf :=
  { Name := identsvc.something.Name
    Flags := identsvc.something.Flags
    Configure := identsvc.something.Configure
    ValidateConfig := identsvc.something.ValidateConfig
    Run := identsvc.something.Run w }

/-! ## Services used as inputs -/

/-- A network and file system in which `something.Run` listens, loads its
key pair, and serves until the listener is closed. -/
def fixture.world : identsvc.World :=
  { Listen := fun _ => none
    LoadX509KeyPair := fun _ _ => none
    Serve := some (.errorString "http: Server closed") }

/-- The digits of a decimal number, read as that number. -/
def fixture.atoi (s : String) : Option Nat :=
  if s.data ≠ [] ∧ s.data.all (fun ch => decide ('0'.toNat ≤ ch.toNat ∧ ch.toNat ≤ '9'.toNat)) then
    some (s.data.foldl (fun n ch => 10 * n + (ch.toNat - '0'.toNat)) 0)
  else none

/-- A service named `gate` whose configuration is a port number (an `int`
field with the key `port`), with a flag `port` whose default, `http`, is not
a number: the decoding of the settings into the configuration fails unless
a number is passed. It validates and runs without an error. -/
def fixture.gate : svc.Service Nat :=
  { Name := "gate"
    Flags := fun f => pflag.FlagSet.StringVarP f "port" "http" ""
    Configure := fun settings c =>
      match settings.lookup "port" with
      | none => (c, none)
      | some text =>
        match fixture.atoi text with
        | some n => (n, none)
        | none => (c, some (.errorString ("cannot parse 'port' as int: " ++ text)))
    ValidateConfig := fun _ => none
    Run := fun _ => none }

/-- A service named `service` without a flag of its own, which validates and
runs without an error. -/
def fixture.plain : svc.Service Unit :=
  { Name := "service"
    Flags := fun f => some f
    Configure := fun _ c => (c, none)
    ValidateConfig := fun _ => none
    Run := fun _ => none }

/-- A service named `vault` with the one flag `client_secret`, without a
default. -/
def fixture.vault : svc.Service Unit :=
  { Name := "vault"
    Flags := fun f => pflag.FlagSet.StringVarP f "client_secret" "" ""
    Configure := fun _ c => (c, none)
    ValidateConfig := fun _ => none
    Run := fun _ => none }

/-- A service named `twins` with two flags whose names differ in letter case
only, `Foo` with the default `a` and `foo` with the default `b`. -/
def fixture.twins : svc.Service Unit :=
  { Name := "twins"
    Flags := fun f =>
      match pflag.FlagSet.StringVarP f "Foo" "a" "" with
      | none => none
      | some f => pflag.FlagSet.StringVarP f "foo" "b" ""
    Configure := fun _ c => (c, none)
    ValidateConfig := fun _ => none
    Run := fun _ => none }

/-- A service whose name is empty, with the flag `listen` whose default is
`:80`. -/
def fixture.nameless : svc.Service Unit :=
  { Name := ""
    Flags := fun f => pflag.FlagSet.StringVarP f "listen" ":80" ""
    Configure := fun _ c => (c, none)
    ValidateConfig := fun _ => none
    Run := fun _ => none }

/-- A service named `helper` with the one flag `Help`, whose default is
`manual`. -/
def fixture.helper : svc.Service Unit :=
  { Name := "helper"
    Flags := fun f => pflag.FlagSet.StringVarP f "Help" "manual" ""
    Configure := fun _ c => (c, none)
    ValidateConfig := fun _ => none
    Run := fun _ => none }

/-- A service named `nest` with the flags `tls`, without a default, and
`tls.cert`, whose default is `cert.pem`. -/
def fixture.nest : svc.Service Unit :=
  { Name := "nest"
    Flags := fun f =>
      match pflag.FlagSet.StringVarP f "tls" "" "" with
      | none => none
      | some f => pflag.FlagSet.StringVarP f "tls.cert" "cert.pem" ""
    Configure := fun _ c => (c, none)
    ValidateConfig := fun _ => none
    Run := fun _ => none }

/-! ## The words of the specification -/

/-- The words of the specification, "a config key containing secret (any
case)": some part of the key is `secret` once put in lower case. -/
def spec.containsSecret (t : CaseTable) (k : String) : Prop :=
  ∃ a m b : String, k = a ++ m ++ b ∧ strings.ToLower t m = "secret"

/-- The words of the specification, "an environment variable is set": the
environment has an entry `name=value`. -/
def spec.envSet (environ : List String) (name : String) : Prop :=
  ∃ e ∈ environ, ∃ value, os.cutEntry e = some (name, value)

/-! ## Theorems -/

/-! ### strings -/

theorem strings.ToUpper_append (t : CaseTable) (a b : String) :
    strings.ToUpper t (a ++ b) = strings.ToUpper t a ++ strings.ToUpper t b := by
  apply String.ext
  simp [strings.ToUpper, String.data_append]

theorem strings.ToUpper_underscore (t : CaseTable) : strings.ToUpper t "_" = "_" := by
  rfl

theorem strings.ToUpper_idem (t : CaseTable)
    (hidem : ∀ r, unicode.ToUpper t (unicode.ToUpper t r) = unicode.ToUpper t r) (s : String) :
    strings.ToUpper t (strings.ToUpper t s) = strings.ToUpper t s := by
  apply String.ext
  simp [strings.ToUpper, hidem]

theorem Char.toNat_ofNat_capital (m : Nat) (h1 : 65 ≤ m) (h2 : m ≤ 90) :
    (Char.ofNat m).toNat = m := by
  interval_cases m <;> rfl

theorem unicode.ToUpper_of_letter (t : CaseTable) (r : Char)
    (h : 'a'.toNat ≤ r.toNat ∧ r.toNat ≤ 'z'.toNat) :
    unicode.ToUpper t r = Char.ofNat (r.toNat - 32) ∧ 'A'.toNat ≤ (unicode.ToUpper t r).toNat
      ∧ (unicode.ToUpper t r).toNat ≤ 'Z'.toNat := by
  have h1 : 97 ≤ r.toNat := h.1
  have h2 : r.toNat ≤ 122 := h.2
  have hle : r.toNat ≤ 0x7F := by omega
  have e : unicode.ToUpper t r = Char.ofNat (r.toNat - 32) := by
    unfold unicode.ToUpper
    rw [if_pos hle, if_pos h]
    rfl
  have hn : (Char.ofNat (r.toNat - 32)).toNat = r.toNat - 32 :=
    Char.toNat_ofNat_capital _ (by omega) (by omega)
  refine ⟨e, ?_, ?_⟩
  · rw [e, hn]; show 65 ≤ _; omega
  · rw [e, hn]; show _ ≤ 90; omega

/-- Without table entries `unicode.ToUpper` is idempotent. -/
theorem unicode.ToUpper_ascii_idem (r : Char) :
    unicode.ToUpper CaseTable.ascii (unicode.ToUpper CaseTable.ascii r)
      = unicode.ToUpper CaseTable.ascii r := by
  by_cases hl : 'a'.toNat ≤ r.toNat ∧ r.toNat ≤ 'z'.toNat
  · obtain ⟨_, h1, h2⟩ := unicode.ToUpper_of_letter CaseTable.ascii r hl
    generalize unicode.ToUpper CaseTable.ascii r = u at h1 h2
    have h1' : 65 ≤ u.toNat := h1
    have h2' : u.toNat ≤ 90 := h2
    have h3 : ¬ ('a'.toNat ≤ u.toNat ∧ u.toNat ≤ 'z'.toNat) := by
      intro h
      have : 97 ≤ u.toNat := h.1
      omega
    simp only [unicode.ToUpper, h3, if_false]
    split <;> rfl
  · have h : unicode.ToUpper CaseTable.ascii r = r := by
      simp only [unicode.ToUpper, hl, if_false]
      split <;> rfl
    rw [h, h]

/-! ### maps -/

theorem List.lookup_cons_self' {V : Type} (a : String) (b : V) (m : List (String × V)) :
    List.lookup a ((a, b) :: m) = some b := by
  simp [List.lookup]

theorem List.lookup_cons_ne' {V : Type} (k a : String) (b : V) (m : List (String × V))
    (h : k ≠ a) : List.lookup k ((a, b) :: m) = List.lookup k m := by
  have hb : (k == a) = false := by simpa using h
  simp [List.lookup, hb]

theorem GoMap.lookup_set {V : Type} (m : List (String × V)) (k : String) (x : V) (k' : String) :
    (GoMap.set m k x).lookup k' = if k' = k then some x else m.lookup k' := by
  induction m with
  | nil =>
    by_cases h : k' = k
    · subst h; simp [GoMap.set, List.lookup_cons_self']
    · simp [GoMap.set, List.lookup_cons_ne' _ _ _ _ h, h]
  | cons e m ih =>
    obtain ⟨a, b⟩ := e
    by_cases ha : a = k
    · subst ha
      by_cases h : k' = a
      · subst h; simp [GoMap.set, List.lookup_cons_self']
      · simp [GoMap.set, List.lookup_cons_ne' _ _ _ _ h, h]
    · by_cases h' : k' = a
      · subst h'
        simp [GoMap.set, ha, List.lookup_cons_self']
      · simp [GoMap.set, ha, List.lookup_cons_ne' _ _ _ _ h', ih]

theorem GoMap.mem_keys_set {V : Type} (m : List (String × V)) (k : String) (x : V) (k' : String) :
    k' ∈ GoMap.keys (GoMap.set m k x) ↔ k' = k ∨ k' ∈ GoMap.keys m := by
  induction m with
  | nil => simp [GoMap.set, GoMap.keys]
  | cons e m ih =>
    obtain ⟨a, b⟩ := e
    by_cases ha : a = k
    · subst ha
      simp [GoMap.set, GoMap.keys]
    · have ih' : k' ∈ List.map Prod.fst (GoMap.set m k x) ↔ k' = k ∨ k' ∈ List.map Prod.fst m := ih
      simp only [GoMap.set, GoMap.keys, ha, if_false, List.map_cons, List.mem_cons, ih']
      tauto

theorem GoMap.nodup_keys_set {V : Type} (m : List (String × V)) (k : String) (x : V)
    (h : (GoMap.keys m).Nodup) : (GoMap.keys (GoMap.set m k x)).Nodup := by
  induction m with
  | nil => simp [GoMap.set, GoMap.keys]
  | cons e m ih =>
    obtain ⟨a, b⟩ := e
    have h' : a ∉ GoMap.keys m ∧ (GoMap.keys m).Nodup := by
      simpa [GoMap.keys] using h
    by_cases ha : a = k
    · subst ha
      simpa [GoMap.set, GoMap.keys] using h
    · have hk : a ∉ GoMap.keys (GoMap.set m k x) := by
        rw [GoMap.mem_keys_set]
        intro hh
        rcases hh with hh | hh
        · exact ha hh
        · exact h'.1 hh
      have := ih h'.2
      simp only [GoMap.set, ha, if_false]
      exact List.nodup_cons.mpr ⟨hk, this⟩

/-! ### the claims on keys, validation, the logger and the handler -/

theorem svc.envKey_eq (t : CaseTable) (p name : String) :
    svc.envKey t p name = strings.ToUpper t p ++ "_" ++ strings.ToUpper t name := by
  unfold svc.envKey
  rw [strings.ToUpper_append, strings.ToUpper_append, strings.ToUpper_underscore]

theorem String.append_right_cancel' (a b c : String) (h : a ++ b = a ++ c) : b = c := by
  have h' := congrArg String.data h
  simp only [String.data_append] at h'
  exact String.ext (List.append_cancel_left h')

/-- C3 (amended): within one service, two flag names derive the same
environment key exactly when their upper-case forms are equal; names whose
upper-case forms differ never collide. -/
theorem C3_envKey_collides_iff_same_upper (t : CaseTable) (n f1 f2 : String) :
    svc.envKey t (svc.envPrefix t n) f1 = svc.envKey t (svc.envPrefix t n) f2
      ↔ strings.ToUpper t f1 = strings.ToUpper t f2 := by
  rw [svc.envKey_eq, svc.envKey_eq]
  constructor
  · intro h
    exact String.append_right_cancel' _ _ _ h
  · intro h
    rw [h]

/-- C3 (as stated) fails: the distinct flag names `foo` and `Foo` of the
service `ident` derive the same key, `IDENT_FOO`, whatever the case table. -/
theorem C3_counterexample :
    "foo" ≠ "Foo"
      ∧ ∀ t : CaseTable,
          svc.envKey t (svc.envPrefix t "ident") "foo" = "IDENT_FOO"
            ∧ svc.envKey t (svc.envPrefix t "ident") "Foo" = "IDENT_FOO" := by
  refine ⟨by decide, fun t => ⟨rfl, rfl⟩⟩

/-- C4: `ValidateConfig` of the example service evaluates both rules: the
error it returns is made of exactly the messages of the rules that fail, in
order, so of as many messages as rules fail; it is nil exactly when no rule
fails, and has two messages when both fields are empty. -/
theorem C4_validate_aggregates (c : identsvc.conf) :
    multierr.Errors (identsvc.something.ValidateConfig c)
        = (if c.ListenTLSCert = "" then ["listen_tls_cert is empty"] else [])
          ++ (if c.ListenTLSKey = "" then ["listen_tls_key is empty"] else [])
      ∧ (multierr.Errors (identsvc.something.ValidateConfig c)).length
          = (if c.ListenTLSCert = "" then 1 else 0) + (if c.ListenTLSKey = "" then 1 else 0)
      ∧ (identsvc.something.ValidateConfig c = none
          ↔ (if c.ListenTLSCert = "" then 1 else 0) + (if c.ListenTLSKey = "" then 1 else 0) = 0)
      ∧ (c.ListenTLSCert = "" → c.ListenTLSKey = "" →
          (multierr.Errors (identsvc.something.ValidateConfig c)).length = 2) := by
  by_cases h1 : c.ListenTLSCert = "" <;> by_cases h2 : c.ListenTLSKey = "" <;>
    simp [identsvc.something.ValidateConfig, multierr.Append, multierr.Errors, h1, h2]

/-- C4 at the configuration with both fields empty: two messages. -/
theorem C4_validate_aggregates_witness :
    (multierr.Errors (identsvc.something.ValidateConfig
      { ListenAddress := "127.0.0.1:6000", ListenTLSCert := "", ListenTLSKey := "" })).length = 2 :=
  (C4_validate_aggregates _).2.2.2 rfl rfl

/-- C8 (amended): when the level of the configuration parses, every encoding
other than `json` and `console` makes `initLogger` fail with the
unknown-encoding error, and no logger is returned; when the level does not
parse, `initLogger` fails with the error of the level, whatever the
encoding. -/
theorem C8_initLogger_errors (t : CaseTable) (Build : zap.Config → Except GoError zap.Logger)
    (sc : svc.globalConfig) :
    (∀ ll, zapcore.Level.Set t sc.LogLevel = .ok ll →
        sc.LogEncoding ≠ "json" → sc.LogEncoding ≠ "console" →
        svc.initLogger t Build sc = .error (.errorString
          ("Unknown log_encoding: '" ++ sc.LogEncoding ++ "' must be json or console")))
      ∧ (∀ err, zapcore.Level.Set t sc.LogLevel = .error err →
        svc.initLogger t Build sc = .error err) := by
  constructor
  · intro ll hll hj hc
    simp [svc.initLogger, hll, hj, hc]
  · intro err herr
    simp [svc.initLogger, herr]

/-- C8 at the encoding `xml` with the default level `debug`. -/
theorem C8_initLogger_errors_witness :
    svc.initLogger CaseTable.ascii (fun c => .ok ⟨c⟩) { LogEncoding := "xml", LogLevel := "debug" }
      = .error (.errorString "Unknown log_encoding: 'xml' must be json or console") :=
  (C8_initLogger_errors CaseTable.ascii (fun c => .ok ⟨c⟩)
    { LogEncoding := "xml", LogLevel := "debug" }).1 .DebugLevel rfl (by decide) (by decide)

/-- C8 (as stated) fails: with the encoding `xml` and the level `loud`, which
does not parse, `initLogger` fails with the error of the level, not with the
unknown-encoding error. -/
theorem C8_counterexample :
    "xml" ≠ "json" ∧ "xml" ≠ "console"
      ∧ svc.initLogger CaseTable.ascii (fun c => .ok ⟨c⟩) { LogEncoding := "xml", LogLevel := "loud" }
          = .error (.errorString "unrecognized level: \"loud\"")
      ∧ svc.initLogger CaseTable.ascii (fun c => .ok ⟨c⟩) { LogEncoding := "xml", LogLevel := "loud" }
          ≠ .error (.errorString "Unknown log_encoding: 'xml' must be json or console") := by
  decide

/-- C10: the handler calls the RPC server exactly when the request has
protocol major version 2 and a `Content-Type` that starts with
`application/grpc`; otherwise it writes `hello world` and does not call the
RPC server; a request of HTTP/1 is of the second kind; in every case the
handler does exactly one of the two. -/
theorem C10_protocol_dispatch (r : http.Request) :
    (identsvc.something.Run.handler r = [.rpcServeHTTP r]
        ↔ (r.ProtoMajor = 2
            ∧ strings.HasPrefix (http.Header.Get r.Header "Content-Type") "application/grpc" = true))
      ∧ (identsvc.something.Run.handler r = [.write "hello world"]
        ↔ ¬ (r.ProtoMajor = 2
            ∧ strings.HasPrefix (http.Header.Get r.Header "Content-Type") "application/grpc" = true))
      ∧ (r.ProtoMajor = 1 → identsvc.something.Run.handler r = [.write "hello world"])
      ∧ (identsvc.something.Run.handler r = [.rpcServeHTTP r]
          ∨ identsvc.something.Run.handler r = [.write "hello world"])
      ∧ (identsvc.something.Run.handler r).length = 1 := by
  by_cases h : r.ProtoMajor = 2
      ∧ strings.HasPrefix (http.Header.Get r.Header "Content-Type") "application/grpc" = true
  · simp [identsvc.something.Run.handler, h]
  · have h1 : identsvc.something.Run.handler r = [.write "hello world"] := by
      simp only [identsvc.something.Run.handler, h, if_false]
    refine ⟨?_, ?_, ?_, ?_, ?_⟩
    · rw [h1]; simp [h]
    · rw [h1]; simp [h]
    · intro _; exact h1
    · exact Or.inr h1
    · rw [h1]; rfl

/-- C10 at a plain `GET` of HTTP/1.1, even with the content type of gRPC. -/
theorem C10_protocol_dispatch_witness :
    identsvc.something.Run.handler
        { Method := "GET", ProtoMajor := 1, ProtoMinor := 1,
          Header := [("Content-Type", ["application/grpc"])] }
      = [.write "hello world"] :=
  (C10_protocol_dispatch _).2.2.1 rfl

/-! ### the loop of `run` over the keys -/

theorem svc.run.keyStep_snd (t : CaseTable) (p : String) (v : viper.Viper) (e : List String)
    (acc : List (String × Option String) × List (String × Bool)) (k : String) :
    (svc.run.keyStep t p v e acc k).2 = GoMap.set acc.2 (svc.envKey t p k) true := by
  unfold svc.run.keyStep
  split
  · rfl
  · split <;> rfl

theorem svc.run.lookup_keyStep (t : CaseTable) (p : String) (v : viper.Viper) (e : List String)
    (acc : List (String × Option String) × List (String × Bool)) (k k' : String) :
    (svc.run.keyStep t p v e acc k).1.lookup k'
      = if k' = k then svc.run.entry t v e k (acc.1.lookup k') else acc.1.lookup k' := by
  unfold svc.run.keyStep svc.run.entry
  by_cases hs : strings.Contains (strings.ToLower t k) "secret" = true
  · simp only [hs, if_true, GoMap.lookup_set]
  · by_cases hi : viper.IsSet t v e k = true
    · simp [hs, hi, GoMap.lookup_set]
    · simp [hs, hi]

theorem svc.run.lookup_foldl (t : CaseTable) (p : String) (v : viper.Viper) (e : List String)
    (ks : List String) (acc : List (String × Option String) × List (String × Bool))
    (k' : String) :
    (ks.foldl (svc.run.keyStep t p v e) acc).1.lookup k'
      = if k' ∈ ks then svc.run.entry t v e k' (acc.1.lookup k') else acc.1.lookup k' := by
  induction ks generalizing acc with
  | nil => simp
  | cons k ks ih =>
    rw [List.foldl_cons, ih, svc.run.lookup_keyStep]
    by_cases h1 : k' = k
    · subst h1
      by_cases h2 : k' ∈ ks
      · simp only [h2, if_true, List.mem_cons, or_true]
        unfold svc.run.entry
        split
        · rfl
        · split <;> rfl
      · simp [h2]
    · simp [h1]

theorem svc.run.mem_keys_foldl (t : CaseTable) (p : String) (v : viper.Viper) (e : List String)
    (ks : List String) (acc : List (String × Option String) × List (String × Bool))
    (k' : String) :
    k' ∈ GoMap.keys (ks.foldl (svc.run.keyStep t p v e) acc).2
      ↔ k' ∈ GoMap.keys acc.2 ∨ ∃ key ∈ ks, k' = svc.envKey t p key := by
  induction ks generalizing acc with
  | nil => simp
  | cons k ks ih =>
    rw [List.foldl_cons, ih, svc.run.keyStep_snd, GoMap.mem_keys_set]
    simp only [List.mem_cons, exists_eq_or_imp]
    tauto

theorem svc.run.values_foldl (t : CaseTable) (p : String) (v : viper.Viper) (e : List String)
    (ks : List String) (acc : List (String × Option String) × List (String × Bool))
    (hacc : ∀ k b, acc.2.lookup k = some b → b = true) (k' : String) (b : Bool)
    (h : (ks.foldl (svc.run.keyStep t p v e) acc).2.lookup k' = some b) : b = true := by
  induction ks generalizing acc with
  | nil => exact hacc k' b h
  | cons k ks ih =>
    rw [List.foldl_cons] at h
    refine ih _ ?_ h
    intro k₁ b₁ h₁
    rw [svc.run.keyStep_snd, GoMap.lookup_set] at h₁
    by_cases hk : k₁ = svc.envKey t p k
    · simp [hk] at h₁
      exact h₁
    · simp [hk] at h₁
      exact hacc k₁ b₁ h₁

theorem GoMap.lookup_isSome_iff {V : Type} (m : List (String × V)) (k : String) :
    (m.lookup k).isSome = true ↔ k ∈ GoMap.keys m := by
  induction m with
  | nil => simp [GoMap.keys]
  | cons e m ih =>
    obtain ⟨a, b⟩ := e
    by_cases h : k = a
    · subst h
      simp [List.lookup_cons_self', GoMap.keys]
    · have ih' : (List.lookup k m).isSome = true ↔ k ∈ List.map Prod.fst m := ih
      rw [List.lookup_cons_ne' _ _ _ _ h, ih']
      simp [GoMap.keys, h]

/-- An environment name is in `validEnv` exactly when it is the key of one of viper's keys. -/
theorem svc.run.validEnv_iff (t : CaseTable) (p : String) (v : viper.Viper) (e : List String)
    (k : String) :
    ((svc.run.validEnv t p v e).lookup k).getD false = true
      ↔ ∃ key ∈ viper.AllKeys v, k = svc.envKey t p key := by
  have hm := svc.run.mem_keys_foldl t p v e (viper.AllKeys v) ([], []) k
  have hv := svc.run.values_foldl t p v e (viper.AllKeys v) ([], []) (by simp) k
  have hs := GoMap.lookup_isSome_iff
    ((viper.AllKeys v).foldl (svc.run.keyStep t p v e) ([], [])).2 k
  unfold svc.run.validEnv
  cases hl : List.lookup k ((viper.AllKeys v).foldl (svc.run.keyStep t p v e) ([], [])).2 with
  | none =>
    rw [hl] at hs
    simp only [Option.getD_none, Bool.false_eq_true, false_iff]
    intro hex
    have := hm.mpr (Or.inr hex)
    have := hs.mpr this
    simp at this
  | some b =>
    rw [hl] at hs
    have hb := hv b hl
    subst hb
    simp only [Option.getD_some, true_iff]
    have := hs.mp (by simp)
    rcases hm.mp this with h | h
    · simp [GoMap.keys] at h
    · exact h

/-! ### envMap -/

theorem svc.envMap_foldl_keys (environ : List String) (rv : List (String × String)) (k : String) :
    k ∈ GoMap.keys (environ.foldl svc.envMap.put rv)
      ↔ k ∈ GoMap.keys rv ∨ ∃ s ∈ environ, ∃ value, os.cutEntry s = some (k, value) := by
  induction environ generalizing rv with
  | nil => simp
  | cons s rest ih =>
    rw [List.foldl_cons, ih]
    unfold svc.envMap.put
    cases hc : os.cutEntry s with
    | none => simp [hc]
    | some nv =>
      obtain ⟨name, value⟩ := nv
      simp only [GoMap.mem_keys_set, List.mem_cons, exists_eq_or_imp, hc, Option.some.injEq,
        Prod.mk.injEq]
      constructor
      · rintro ((h | h) | h)
        · exact Or.inr (Or.inl ⟨value, h.symm, rfl⟩)
        · exact Or.inl h
        · exact Or.inr (Or.inr h)
      · rintro (h | ⟨_, h, _⟩ | h)
        · exact Or.inl (Or.inr h)
        · exact Or.inl (Or.inl h.symm)
        · exact Or.inr h

theorem svc.envMap_foldl_nodup (environ : List String) (rv : List (String × String))
    (h : (GoMap.keys rv).Nodup) :
    (GoMap.keys (environ.foldl svc.envMap.put rv)).Nodup := by
  induction environ generalizing rv with
  | nil => simpa using h
  | cons s rest ih =>
    rw [List.foldl_cons]
    apply ih
    unfold svc.envMap.put
    cases hc : os.cutEntry s with
    | none => simpa using h
    | some nv => exact GoMap.nodup_keys_set _ _ _ h

/-- The names of `envMap()` are the names of the entries of the environment. -/
theorem svc.mem_envMap_keys (environ : List String) (k : String) :
    k ∈ GoMap.keys (svc.envMap environ)
      ↔ ∃ s ∈ environ, ∃ value, os.cutEntry s = some (k, value) := by
  unfold svc.envMap
  rw [svc.envMap_foldl_keys]
  simp [GoMap.keys]

theorem svc.envMap_keys_nodup (environ : List String) :
    (GoMap.keys (svc.envMap environ)).Nodup := by
  unfold svc.envMap
  exact svc.envMap_foldl_nodup environ [] (by simp [GoMap.keys])

theorem svc.run.warning_injective : Function.Injective svc.run.warning := by
  intro a b h
  simpa [svc.run.warning] using h

theorem svc.run.audit_eq (p : String) (validEnv : List (String × Bool))
    (env : List (String × String)) :
    svc.run.audit p validEnv env
      = ((GoMap.keys env).filter
          (fun k => strings.HasPrefix k p && !((validEnv.lookup k).getD false))).map
          svc.run.warning := by
  induction env with
  | nil => simp [svc.run.audit, GoMap.keys]
  | cons kv env ih =>
    unfold svc.run.audit at ih ⊢
    rw [List.filterMap_cons, ih]
    cases hp : strings.HasPrefix kv.1 p <;> cases hv : (validEnv.lookup kv.1).getD false <;>
      simp [hp, hv, GoMap.keys, List.filter_cons]

/-- In the audit of a map, a variable is warned about once when it is a name of
the map, has the prefix and is not valid, and not at all otherwise. -/
theorem svc.run.count_audit (p : String) (validEnv : List (String × Bool))
    (env : List (String × String)) (hnd : (GoMap.keys env).Nodup) (k : String) :
    (svc.run.audit p validEnv env).count (svc.run.warning k)
      = if k ∈ GoMap.keys env ∧ strings.HasPrefix k p = true
            ∧ (validEnv.lookup k).getD false = false then 1 else 0 := by
  rw [svc.run.audit_eq, List.count_map_of_injective _ _ svc.run.warning_injective]
  by_cases hc : (strings.HasPrefix k p && !((validEnv.lookup k).getD false)) = true
  · rw [List.count_filter (p := fun k => strings.HasPrefix k p && !((validEnv.lookup k).getD false))
      hc, List.count_eq_of_nodup hnd]
    have hc' : strings.HasPrefix k p = true ∧ (validEnv.lookup k).getD false = false := by
      simpa using hc
    simp [hc'.1, hc'.2]
  · have h0 : List.count k ((GoMap.keys env).filter
        (fun k => strings.HasPrefix k p && !((validEnv.lookup k).getD false))) = 0 := by
      rw [List.count_eq_zero]
      intro hmem
      exact hc (List.mem_filter.mp hmem).2
    rw [h0]
    have hc' : ¬ (strings.HasPrefix k p = true ∧ (validEnv.lookup k).getD false = false) := by
      simpa using hc
    rw [if_neg]
    exact fun h => hc' h.2

theorem svc.run.mem_audit (p : String) (validEnv : List (String × Bool))
    (env : List (String × String)) (e : zap.Entry) (h : e ∈ svc.run.audit p validEnv env) :
    ∃ k, e = svc.run.warning k ∧ k ∈ GoMap.keys env ∧ strings.HasPrefix k p = true
      ∧ (validEnv.lookup k).getD false = false := by
  rw [svc.run.audit_eq, List.mem_map] at h
  obtain ⟨k, hk, rfl⟩ := h
  rw [List.mem_filter] at hk
  have hc : strings.HasPrefix k p = true ∧ (validEnv.lookup k).getD false = false := by
    simpa using hk.2
  exact ⟨k, rfl, hk.1, hc.1, hc.2⟩

/-! ### secrets -/

theorem strings.Contains_iff_infix (s sub : String) :
    strings.Contains s sub = true ↔ sub.data <:+: s.data := by
  unfold strings.Contains
  rw [List.any_eq_true, List.infix_iff_prefix_suffix]
  constructor
  · rintro ⟨rest, hmem, hpre⟩
    exact ⟨rest, List.isPrefixOf_iff_prefix.mp hpre, (List.mem_tails _ _).mp hmem⟩
  · rintro ⟨rest, hpre, hsuf⟩
    exact ⟨rest, (List.mem_tails _ _).mpr hsuf, List.isPrefixOf_iff_prefix.mpr hpre⟩

/-- The test of `run` for a secret is the one the specification words. -/
theorem svc.run.secret_iff (t : CaseTable) (k : String) :
    strings.Contains (strings.ToLower t k) "secret" = true ↔ spec.containsSecret t k := by
  rw [strings.Contains_iff_infix]
  unfold spec.containsSecret strings.ToLower
  constructor
  · rintro ⟨pre, suf, h⟩
    have h' : List.map (unicode.ToLower t) k.data = (pre ++ "secret".data) ++ suf := h.symm
    obtain ⟨l₁, l₂, hk, h₁, _⟩ := List.map_eq_append_iff.mp h'
    obtain ⟨l₃, l₄, hk', _, h₄⟩ := List.map_eq_append_iff.mp h₁
    refine ⟨⟨l₃⟩, ⟨l₄⟩, ⟨l₂⟩, ?_, ?_⟩
    · apply String.ext
      simp [String.data_append, hk, hk']
    · apply String.ext
      simpa using h₄
  · rintro ⟨a, m, b, hk, hm⟩
    have hm' : List.map (unicode.ToLower t) m.data = "secret".data := congrArg String.data hm
    refine ⟨a.data.map (unicode.ToLower t), b.data.map (unicode.ToLower t), ?_⟩
    rw [hk]
    simp [String.data_append, hm']

theorem svc.run.not_secret_iff (t : CaseTable) (k : String) :
    strings.Contains (strings.ToLower t k) "secret" = false ↔ ¬ spec.containsSecret t k := by
  rw [← svc.run.secret_iff]
  simp

theorem svc.run.lookup_configDump (t : CaseTable) (p : String) (v : viper.Viper)
    (e : List String) (k : String) :
    (svc.run.configDump t p v e).lookup k
      = if k ∈ viper.AllKeys v then svc.run.entry t v e k none else none := by
  unfold svc.run.configDump
  rw [svc.run.lookup_foldl]
  simp

theorem svc.run.foldl_congr (t : CaseTable) (p : String) (v₁ v₂ : viper.Viper)
    (e₁ e₂ : List String) (ks : List String)
    (h : ∀ k ∈ ks, strings.Contains (strings.ToLower t k) "secret" = false →
      viper.Get t v₁ e₁ k = viper.Get t v₂ e₂ k ∧ viper.IsSet t v₁ e₁ k = viper.IsSet t v₂ e₂ k)
    (acc : List (String × Option String) × List (String × Bool)) :
    ks.foldl (svc.run.keyStep t p v₁ e₁) acc = ks.foldl (svc.run.keyStep t p v₂ e₂) acc := by
  induction ks generalizing acc with
  | nil => rfl
  | cons k ks ih =>
    rw [List.foldl_cons, List.foldl_cons]
    have hstep : svc.run.keyStep t p v₁ e₁ acc k = svc.run.keyStep t p v₂ e₂ acc k := by
      unfold svc.run.keyStep
      cases hs : strings.Contains (strings.ToLower t k) "secret" with
      | true => simp
      | false =>
        obtain ⟨hg, hi⟩ := h k (List.mem_cons_self _ _) hs
        simp [hg, hi]
    rw [hstep]
    exact ih (fun k' hk' => h k' (List.mem_cons_of_mem _ hk')) _

/-- C5: in the snapshot `configDump` of `run`, every known key that contains
`secret` in any letter case maps to the marker; and two runs with the same
keys that agree on the value and on the set-ness of every other key have
the same snapshot, so that the value of such a key has no part in it. -/
theorem C5_secret_redaction (t : CaseTable) (envPrefix : String) :
    (∀ (v : viper.Viper) (environ : List String) (k : String),
        k ∈ viper.AllKeys v → spec.containsSecret t k →
        (svc.run.configDump t envPrefix v environ).lookup k = some (some "%%%_SECRET_MASKED_%%%"))
      ∧ (∀ (v₁ v₂ : viper.Viper) (e₁ e₂ : List String),
        viper.AllKeys v₁ = viper.AllKeys v₂ →
        (∀ k ∈ viper.AllKeys v₁, ¬ spec.containsSecret t k →
          viper.Get t v₁ e₁ k = viper.Get t v₂ e₂ k
            ∧ viper.IsSet t v₁ e₁ k = viper.IsSet t v₂ e₂ k) →
        svc.run.configDump t envPrefix v₁ e₁ = svc.run.configDump t envPrefix v₂ e₂) := by
  constructor
  · intro v environ k hk hs
    rw [svc.run.lookup_configDump, if_pos hk]
    unfold svc.run.entry
    rw [if_pos ((svc.run.secret_iff t k).mpr hs)]
    rfl
  · intro v₁ v₂ e₁ e₂ hkeys h
    unfold svc.run.configDump
    rw [← hkeys]
    rw [svc.run.foldl_congr t envPrefix v₁ v₂ e₁ e₂ (viper.AllKeys v₁)
      (fun k hk hs => h k hk ((svc.run.not_secret_iff t k).mp hs))]

theorem viper.find_of_find_false (t : CaseTable) (v : viper.Viper) (e : List String)
    (key : String) (x : String) (h : viper.find t v e key false = some x) :
    viper.find t v e key true = some x := by
  unfold viper.find at h ⊢
  revert h
  simp only []
  split
  · exact id
  · split
    · exact id
    · cases (if v.automaticEnvApplied = true then
          viper.getEnv e (viper.mergeWithEnvPrefix t v key) else none) with
      | some val => exact id
      | none =>
        intro h
        simp only [] at h
        split at h <;> simp at h

/-- C6 (amended): a key that is not set and does not contain `secret` has no
entry in `configDump`; a known key that is set and does not contain `secret`
has its bound value, the value of `viper.Get`, as entry; a known key that
contains `secret` has the marker as entry, set or not. -/
theorem C6_unset_keys_omitted (t : CaseTable) (envPrefix : String) (v : viper.Viper)
    (environ : List String) :
    (∀ k, ¬ spec.containsSecret t k → viper.IsSet t v environ k = false →
        (svc.run.configDump t envPrefix v environ).lookup k = none)
      ∧ (∀ k ∈ viper.AllKeys v, ¬ spec.containsSecret t k → viper.IsSet t v environ k = true →
        ∃ value, viper.Get t v environ k = some value
          ∧ (svc.run.configDump t envPrefix v environ).lookup k = some (some value))
      ∧ (∀ k ∈ viper.AllKeys v, spec.containsSecret t k →
        (svc.run.configDump t envPrefix v environ).lookup k
          = some (some "%%%_SECRET_MASKED_%%%")) := by
  refine ⟨?_, ?_, ?_⟩
  · intro k hs hi
    rw [svc.run.lookup_configDump]
    by_cases hk : k ∈ viper.AllKeys v
    · rw [if_pos hk]
      unfold svc.run.entry
      rw [if_neg (by rw [svc.run.secret_iff]; exact hs)]
      simp [hi]
    · rw [if_neg hk]
  · intro k hk hs hi
    have hsome : (viper.find t v environ (strings.ToLower t k) false).isSome = true := hi
    obtain ⟨value, hvalue⟩ := Option.isSome_iff_exists.mp hsome
    have hget : viper.Get t v environ k = some value :=
      viper.find_of_find_false t v environ _ value hvalue
    refine ⟨value, hget, ?_⟩
    rw [svc.run.lookup_configDump, if_pos hk]
    unfold svc.run.entry
    rw [if_neg (by rw [svc.run.secret_iff]; exact hs), if_pos hi, hget]
  · intro k hk hs
    rw [svc.run.lookup_configDump, if_pos hk]
    unfold svc.run.entry
    rw [if_pos ((svc.run.secret_iff t k).mpr hs)]
    rfl

/-- C6 (as stated) fails: the flag `client_secret` of the service `vault` is
a known key that is not set (not passed, no environment variable), and
`configDump` has an entry for it, the marker. -/
theorem C6_counterexample :
    ∃ v, svc.Command.bound CaseTable.ascii fixture.vault [] = some v
      ∧ "client_secret" ∈ viper.AllKeys v
      ∧ viper.IsSet CaseTable.ascii v [] "client_secret" = false
      ∧ (svc.run.configDump CaseTable.ascii (svc.envPrefix CaseTable.ascii "vault") v []).lookup
          "client_secret" = some (some "%%%_SECRET_MASKED_%%%") :=
  ⟨_, rfl, by decide, by decide, by decide⟩

/-- C2: the key that `Command` writes into the usage of a flag, and the keys
that `run` stores in `validEnv`, are the upper-case service name, `_`, and
the upper-case name of the flag or key. -/
theorem C2_envKey_derivation (t : CaseTable)
    (hidem : ∀ r, unicode.ToUpper t (unicode.ToUpper t r) = unicode.ToUpper t r)
    (n : String) :
    (∀ f : String,
        svc.envKey t (svc.envPrefix t n) f = strings.ToUpper t n ++ "_" ++ strings.ToUpper t f)
      ∧ (∀ f : pflag.Flag,
        (svc.Command.annotate t (svc.envPrefix t n) f).Usage
          = (if f.Usage ≠ "" then f.Usage ++ " " else f.Usage)
              ++ "$\x7b" ++ (strings.ToUpper t n ++ "_" ++ strings.ToUpper t f.Name) ++ "\x7d")
      ∧ (∀ (v : viper.Viper) (environ : List String) (k : String),
        ((svc.run.validEnv t (svc.envPrefix t n) v environ).lookup k).getD false = true
          ↔ ∃ key ∈ viper.AllKeys v, k = strings.ToUpper t n ++ "_" ++ strings.ToUpper t key) := by
  have hkey : ∀ f : String,
      svc.envKey t (svc.envPrefix t n) f = strings.ToUpper t n ++ "_" ++ strings.ToUpper t f := by
    intro f
    rw [svc.envKey_eq, svc.envPrefix, strings.ToUpper_idem t hidem]
  refine ⟨hkey, ?_, ?_⟩
  · intro f
    simp only [svc.Command.annotate, hkey]
  · intro v environ k
    rw [svc.run.validEnv_iff]
    simp only [hkey]

/-- C2 for the service `ident` and its flag `listen_address`. -/
theorem C2_envKey_derivation_witness :
    svc.envKey CaseTable.ascii (svc.envPrefix CaseTable.ascii "ident") "listen_address"
      = "IDENT_LISTEN_ADDRESS" :=
  ((C2_envKey_derivation CaseTable.ascii unicode.ToUpper_ascii_idem "ident").1
    "listen_address").trans (by decide)

theorem zap.count_written (l : zap.Logger) (calls : List zap.Entry) (e : zap.Entry) :
    (l.written calls).count e
      = if l.config.Level.Enabled e.level = true then calls.count e else 0 := by
  unfold zap.Logger.written
  by_cases h : l.config.Level.Enabled e.level = true
  · rw [if_pos h]
    exact List.count_filter (p := fun x : zap.Entry => l.config.Level.Enabled x.level) h
  · rw [if_neg h, List.count_eq_zero]
    intro hmem
    exact h (List.mem_filter.mp hmem).2

theorem svc.run_of_ok {σ : Type} (t : CaseTable) (Build : zap.Config → Except GoError zap.Logger)
    (s : svc.Service σ) (c : σ) (v : viper.Viper) (environ : List String) (l : zap.Logger)
    (hlog : svc.initLogger t Build
      (viper.Unmarshal svc.globalConfig.decode t v environ { LogEncoding := "", LogLevel := "" }).1
        = .ok l)
    (hval : s.ValidateConfig (viper.Unmarshal s.Configure t v environ c).1 = none) :
    svc.run t Build s c v environ
      = { err := s.Run (viper.Unmarshal s.Configure t v environ c).1
          served := some (viper.Unmarshal s.Configure t v environ c).1
          log :=
            svc.run.configureLog (viper.Unmarshal s.Configure t v environ c).2
            ++ svc.run.audit (svc.envPrefix t s.Name)
                (svc.run.validEnv t (svc.envPrefix t s.Name) v environ) (svc.envMap environ)
            ++ [svc.run.startLog s.Name
                  (svc.run.configDump t (svc.envPrefix t s.Name) v environ)] } := by
  unfold svc.run
  have hdec : ∀ x, (viper.Unmarshal svc.globalConfig.decode t v environ x).2 = none := by
    intro x; rfl
  generalize hU : viper.Unmarshal svc.globalConfig.decode t v environ
    { LogEncoding := "", LogLevel := "" } = U at hlog
  obtain ⟨gc, ge⟩ := U
  have hge : ge = none := by
    have := hdec { LogEncoding := "", LogLevel := "" }
    rw [hU] at this
    exact this
  subst hge
  simp only [] at hlog
  simp only [hlog, hval]

theorem svc.run.configureLog_level (err : Option GoError) (k : String) :
    ∀ e ∈ svc.run.configureLog err, e.level ≠ .WarnLevel ∧ e ≠ svc.run.warning k := by
  intro e he
  cases err with
  | none => simp [svc.run.configureLog] at he
  | some err =>
    simp only [svc.run.configureLog, List.mem_singleton] at he
    subst he
    exact ⟨by simp, by simp [svc.run.warning]⟩

/-- C7 (amended): when `run` gets to its audit (the logger was configured
and `s.ValidateConfig` returned nil), it calls `zap.L().Warn` exactly once for
every environment variable that is set, whose name starts with the
upper-case service name and is the key of no known configuration key, and
for no other variable; every `Warn` call of `run` is such a warning; the
audit does not make `run` fail: `run` goes on to `s.Run` and returns what it
returns; and the logger that `initLogger` returned writes these warnings
exactly when the level `warn` is enabled at its level. -/
theorem C7_environment_audit {σ : Type} (t : CaseTable)
    (Build : zap.Config → Except GoError zap.Logger)
    (s : svc.Service σ) (c : σ) (v : viper.Viper) (environ : List String) (l : zap.Logger)
    (hlog : svc.initLogger t Build
      (viper.Unmarshal svc.globalConfig.decode t v environ { LogEncoding := "", LogLevel := "" }).1
        = .ok l)
    (hval : s.ValidateConfig (viper.Unmarshal s.Configure t v environ c).1 = none) :
    (∀ k, spec.envSet environ k → strings.HasPrefix k (strings.ToUpper t s.Name) = true →
        (¬ ∃ key ∈ viper.AllKeys v, k = svc.envKey t (strings.ToUpper t s.Name) key) →
        (svc.run t Build s c v environ).log.count (svc.run.warning k) = 1)
      ∧ (∀ k, ¬ (spec.envSet environ k ∧ strings.HasPrefix k (strings.ToUpper t s.Name) = true
            ∧ ¬ ∃ key ∈ viper.AllKeys v, k = svc.envKey t (strings.ToUpper t s.Name) key) →
        (svc.run t Build s c v environ).log.count (svc.run.warning k) = 0)
      ∧ (∀ e ∈ (svc.run t Build s c v environ).log, e.level = .WarnLevel →
        ∃ k, e = svc.run.warning k)
      ∧ (svc.run t Build s c v environ).err = s.Run (viper.Unmarshal s.Configure t v environ c).1
      ∧ (svc.run t Build s c v environ).served
          = some (viper.Unmarshal s.Configure t v environ c).1
      ∧ (∀ k, (l.written (svc.run t Build s c v environ).log).count (svc.run.warning k)
          = if l.config.Level.Enabled .WarnLevel = true then
              (svc.run t Build s c v environ).log.count (svc.run.warning k)
            else 0) := by
  rw [svc.run_of_ok t Build s c v environ l hlog hval]
  have hcount : ∀ k, List.count (svc.run.warning k)
      (svc.run.configureLog (viper.Unmarshal s.Configure t v environ c).2
        ++ svc.run.audit (svc.envPrefix t s.Name)
            (svc.run.validEnv t (svc.envPrefix t s.Name) v environ) (svc.envMap environ)
        ++ [svc.run.startLog s.Name (svc.run.configDump t (svc.envPrefix t s.Name) v environ)])
      = if k ∈ GoMap.keys (svc.envMap environ) ∧ strings.HasPrefix k (svc.envPrefix t s.Name) = true
            ∧ ((svc.run.validEnv t (svc.envPrefix t s.Name) v environ).lookup k).getD false = false
        then 1 else 0 := by
    intro k
    rw [List.count_append, List.count_append,
      svc.run.count_audit _ _ _ (svc.envMap_keys_nodup environ)]
    have h1 : List.count (svc.run.warning k)
        (svc.run.configureLog (viper.Unmarshal s.Configure t v environ c).2) = 0 := by
      rw [List.count_eq_zero]
      intro hmem
      exact (svc.run.configureLog_level _ k _ hmem).2 rfl
    have h3 : List.count (svc.run.warning k)
        [svc.run.startLog s.Name (svc.run.configDump t (svc.envPrefix t s.Name) v environ)]
          = 0 := by
      rw [List.count_eq_zero]
      simp [svc.run.warning, svc.run.startLog]
    rw [h1, h3]
    simp
  have hvalid : ∀ k, ((svc.run.validEnv t (svc.envPrefix t s.Name) v environ).lookup k).getD false
      = false ↔ ¬ ∃ key ∈ viper.AllKeys v, k = svc.envKey t (strings.ToUpper t s.Name) key := by
    intro k
    have := svc.run.validEnv_iff t (svc.envPrefix t s.Name) v environ k
    unfold svc.envPrefix at this ⊢
    rw [← this]
    simp
  refine ⟨?_, ?_, ?_, rfl, rfl, fun k => zap.count_written l _ (svc.run.warning k)⟩
  · intro k hset hpre hno
    simp only []
    rw [hcount, if_pos]
    exact ⟨(svc.mem_envMap_keys environ k).mpr hset, hpre, (hvalid k).mpr hno⟩
  · intro k hk
    simp only []
    rw [hcount, if_neg]
    rintro ⟨h1, h2, h3⟩
    exact hk ⟨(svc.mem_envMap_keys environ k).mp h1, h2, (hvalid k).mp h3⟩
  · intro e he hlevel
    simp only [List.mem_append] at he
    rcases he with (he | he) | he
    · exact absurd hlevel (svc.run.configureLog_level _ "" e he).1
    · obtain ⟨k, hk, _⟩ := svc.run.mem_audit _ _ _ e he
      exact ⟨k, hk⟩
    · simp only [List.mem_singleton] at he
      subst he
      exact absurd hlevel (by simp [svc.run.startLog])

/-- C7 for the service `service` with the variable `SERVICE_FOO` set and no
flag `foo`, at the default level `debug`: one warning, which names
`SERVICE_FOO` and is written, and no error. -/
theorem C7_environment_audit_witness :
    ∃ v, svc.Command.bound CaseTable.ascii fixture.plain [] = some v
      ∧ (svc.run CaseTable.ascii (fun c => .ok ⟨c⟩) fixture.plain () v ["SERVICE_FOO=1"]).log.count
          (svc.run.warning "SERVICE_FOO") = 1
      ∧ (svc.run CaseTable.ascii (fun c => .ok ⟨c⟩) fixture.plain () v ["SERVICE_FOO=1"]).err
          = none
      ∧ (zap.Logger.written
            ⟨{ Level := .DebugLevel, DevelopmentEncoder := true, Encoding := "console" }⟩
            (svc.run CaseTable.ascii (fun c => .ok ⟨c⟩) fixture.plain () v
              ["SERVICE_FOO=1"]).log).count
          (svc.run.warning "SERVICE_FOO") = 1 := by
  refine ⟨_, rfl, ?_, ?_, by decide⟩
  · exact (C7_environment_audit CaseTable.ascii (fun c => .ok ⟨c⟩) fixture.plain () _
        ["SERVICE_FOO=1"]
        ⟨{ Level := .DebugLevel, DevelopmentEncoder := true, Encoding := "console" }⟩
        (by decide) rfl).1
      "SERVICE_FOO" ⟨"SERVICE_FOO=1", by simp, "1", by decide⟩ (by decide) (by decide)
  · exact (C7_environment_audit CaseTable.ascii (fun c => .ok ⟨c⟩) fixture.plain () _
        ["SERVICE_FOO=1"]
        ⟨{ Level := .DebugLevel, DevelopmentEncoder := true, Encoding := "console" }⟩
        (by decide) rfl).2.2.2.1

/-- C7 (as stated) fails: for the service `service` with `SERVICE_FOO` set
and no flag `foo`, `run` makes no warning when `SERVICE_LOG_LEVEL` is `loud`
(it returns the error of the level before the audit), and when
`SERVICE_LOG_LEVEL` is `error` it calls `Warn` once but the logger, at the
level `error`, does not write the entry. -/
theorem C7_counterexample :
    ∃ v, svc.Command.bound CaseTable.ascii fixture.plain [] = some v
      ∧ spec.envSet ["SERVICE_LOG_LEVEL=loud", "SERVICE_FOO=1"] "SERVICE_FOO"
      ∧ strings.HasPrefix "SERVICE_FOO" (strings.ToUpper CaseTable.ascii "service") = true
      ∧ (¬ ∃ key ∈ viper.AllKeys v,
            "SERVICE_FOO" = svc.envKey CaseTable.ascii (strings.ToUpper CaseTable.ascii "service") key)
      ∧ (svc.run CaseTable.ascii (fun c => .ok ⟨c⟩) fixture.plain () v
            ["SERVICE_LOG_LEVEL=loud", "SERVICE_FOO=1"]).log.count
          (svc.run.warning "SERVICE_FOO") = 0
      ∧ (svc.run CaseTable.ascii (fun c => .ok ⟨c⟩) fixture.plain () v
            ["SERVICE_LOG_LEVEL=loud", "SERVICE_FOO=1"]).err
          = some (.errorString "unrecognized level: \"loud\"")
      ∧ (svc.run CaseTable.ascii (fun c => .ok ⟨c⟩) fixture.plain () v
            ["SERVICE_LOG_LEVEL=error", "SERVICE_FOO=1"]).log.count
          (svc.run.warning "SERVICE_FOO") = 1
      ∧ (zap.Logger.written
            ⟨{ Level := .ErrorLevel, DevelopmentEncoder := true, Encoding := "console" }⟩
            (svc.run CaseTable.ascii (fun c => .ok ⟨c⟩) fixture.plain () v
              ["SERVICE_LOG_LEVEL=error", "SERVICE_FOO=1"]).log).count
          (svc.run.warning "SERVICE_FOO") = 0 :=
  ⟨_, rfl, ⟨"SERVICE_FOO=1", by simp, "1", by decide⟩, by decide, by decide, by decide,
    by decide, by decide, by decide⟩

/-- C9 fails on `run`: for the service `gate` started without a flag, the
decoding of the settings into the configuration fails (`http` is not a
number), and `run` still invokes `s.Run`, with the configuration as it was,
and returns nil. -/
theorem C9_load_failure_not_fatal :
    ∃ v, svc.Command.bound CaseTable.ascii fixture.gate [] = some v
      ∧ (viper.Unmarshal fixture.gate.Configure CaseTable.ascii v [] 0).2
          = some (.errorString "cannot parse 'port' as int: http")
      ∧ (svc.run CaseTable.ascii (fun c => .ok ⟨c⟩) fixture.gate 0 v []).err = none
      ∧ (svc.run CaseTable.ascii (fun c => .ok ⟨c⟩) fixture.gate 0 v []).served = some 0
      ∧ (svc.run CaseTable.ascii (fun c => .ok ⟨c⟩) fixture.gate 0 v []).log.head?
          = some { level := .ErrorLevel, msg := "Failed to load service configuration",
                   fields := [.Error (.errorString "cannot parse 'port' as int: http")] } :=
  ⟨_, rfl, by decide, by decide, by decide, by decide⟩

/-! ### pflag: parsing -/

/-- A flag after the flags of the command line were set on it, one by one. -/
theorem pflag.Parse_eq (passed : List (String × String)) (f f' : List pflag.Flag)
    (h : pflag.FlagSet.Parse f passed = .ok f') :
    f' = f.map (fun g => passed.foldl (fun g nv => g.assign nv.1 nv.2) g) := by
  induction passed generalizing f with
  | nil =>
    simp only [pflag.FlagSet.Parse] at h
    cases h
    simp
  | cons nv rest ih =>
    obtain ⟨name, value⟩ := nv
    simp only [pflag.FlagSet.Parse] at h
    split at h
    · cases h
    · cases hset : pflag.FlagSet.Set f name value with
      | error err => rw [hset] at h; cases h
      | ok f₁ =>
        rw [hset] at h
        simp only [] at h
        have h₁ := ih f₁ h
        unfold pflag.FlagSet.Set at hset
        split at hset
        · cases hset
        · cases hset
          rw [h₁, List.map_map]
          rfl

theorem pflag.assign_Name (g : pflag.Flag) (name value : String) :
    (g.assign name value).Name = g.Name := by
  unfold pflag.Flag.assign
  split <;> rfl

theorem pflag.assign_DefValue (g : pflag.Flag) (name value : String) :
    (g.assign name value).DefValue = g.DefValue := by
  unfold pflag.Flag.assign
  split <;> rfl

theorem pflag.assign_of_eq (g : pflag.Flag) (name value : String) (h : g.Name = name) :
    g.assign name value = { g with Value := value, Changed := true } := by
  unfold pflag.Flag.assign
  rw [if_pos h]

theorem pflag.assign_of_ne (g : pflag.Flag) (name value : String) (h : g.Name ≠ name) :
    g.assign name value = g := by
  unfold pflag.Flag.assign
  rw [if_neg h]

theorem pflag.foldl_assign_Name (passed : List (String × String)) (g : pflag.Flag) :
    (passed.foldl (fun g nv => g.assign nv.1 nv.2) g).Name = g.Name := by
  induction passed generalizing g with
  | nil => rfl
  | cons nv rest ih => rw [List.foldl_cons, ih, pflag.assign_Name]

theorem pflag.foldl_assign_not_passed (passed : List (String × String)) (g : pflag.Flag)
    (h : g.Name ∉ passed.map Prod.fst) :
    passed.foldl (fun g nv => g.assign nv.1 nv.2) g = g := by
  induction passed generalizing g with
  | nil => rfl
  | cons nv rest ih =>
    simp only [List.map_cons, List.mem_cons, not_or] at h
    rw [List.foldl_cons]
    rw [pflag.assign_of_ne _ _ _ h.1]
    exact ih g h.2

theorem pflag.foldl_assign_passed (passed : List (String × String)) (g : pflag.Flag)
    (value : String) (h : passed.reverse.lookup g.Name = some value) :
    (passed.foldl (fun g nv => g.assign nv.1 nv.2) g).Value = value
      ∧ (passed.foldl (fun g nv => g.assign nv.1 nv.2) g).Changed = true := by
  induction passed using List.reverseRecOn with
  | nil => simp at h
  | append_singleton init nv ih =>
    obtain ⟨name, v⟩ := nv
    rw [List.foldl_append, List.foldl_cons, List.foldl_nil]
    rw [List.reverse_append, List.reverse_singleton, List.singleton_append] at h
    by_cases hn : g.Name = name
    · subst hn
      rw [List.lookup_cons_self'] at h
      cases h
      rw [pflag.assign_of_eq _ _ _ (pflag.foldl_assign_Name init g)]
      exact ⟨rfl, rfl⟩
    · rw [List.lookup_cons_ne' _ _ _ _ hn] at h
      have := ih h
      rw [pflag.assign_of_ne _ _ _ (by rw [pflag.foldl_assign_Name]; exact hn)]
      exact this

/-! ### viper: binding -/

theorem pflag.Lookup_of_mem (flags : List pflag.Flag) (g : pflag.Flag) (hg : g ∈ flags)
    (huniq : ∀ h ∈ flags, h.Name = g.Name → h = g) :
    pflag.FlagSet.Lookup flags g.Name = some g := by
  unfold pflag.FlagSet.Lookup
  induction flags with
  | nil => simp at hg
  | cons a rest ih =>
    by_cases ha : a.Name = g.Name
    · have : a = g := huniq a (List.mem_cons_self _ _) ha
      subst this
      simp [List.find?_cons]
    · have hg' : g ∈ rest := by
        rcases List.mem_cons.mp hg with h | h
        · exact absurd (congrArg pflag.Flag.Name h).symm ha
        · exact h
      rw [List.find?_cons]
      simp only [ha, decide_False]
      exact ih hg' (fun h hh => huniq h (List.mem_cons_of_mem _ hh))

theorem pflag.Lookup_isSome_of_mem (flags : List pflag.Flag) (g : pflag.Flag) (hg : g ∈ flags) :
    ∃ x, pflag.FlagSet.Lookup flags g.Name = some x := by
  unfold pflag.FlagSet.Lookup
  cases h : flags.find? (fun flag => flag.Name = g.Name) with
  | some x => exact ⟨x, rfl⟩
  | none =>
    rw [List.find?_eq_none] at h
    exact absurd (by simp) (h g hg)

/-- The flags bound by the visits of `PreRunE`, as a map. -/
theorem svc.PreRunE_foldl (t : CaseTable) (flags L : List pflag.Flag)
    (hL : ∀ g ∈ L, g ∈ flags) (acc : viper.Viper × Option GoError) :
    L.foldl (svc.Command.PreRunE.visit t flags) acc
      = ({ acc.1 with
            pflags := L.foldl
              (fun m g => GoMap.set m (strings.ToLower t g.Name)
                ((pflag.FlagSet.Lookup flags g.Name).getD g))
              acc.1.pflags }, acc.2) := by
  induction L generalizing acc with
  | nil => rfl
  | cons g rest ih =>
    rw [List.foldl_cons, List.foldl_cons]
    obtain ⟨x, hx⟩ := pflag.Lookup_isSome_of_mem flags g (hL g (List.mem_cons_self _ _))
    rw [ih (fun g' hg' => hL g' (List.mem_cons_of_mem _ hg'))]
    simp only [svc.Command.PreRunE.visit, hx, viper.BindPFlag, Option.getD_some]

theorem svc.PreRunE_eq (t : CaseTable) (v : viper.Viper) (flags : List pflag.Flag) :
    svc.Command.PreRunE t v flags
      = ({ v with
            pflags := (pflag.FlagSet.VisitAll flags).foldl
              (fun m g => GoMap.set m (strings.ToLower t g.Name)
                ((pflag.FlagSet.Lookup flags g.Name).getD g))
              v.pflags }, none) := by
  unfold svc.Command.PreRunE
  rw [svc.PreRunE_foldl t flags (pflag.FlagSet.VisitAll flags)]
  intro g hg
  exact (List.mem_insertionSort _).mp hg

theorem GoMap.lookup_foldl_set_stable {α V : Type} (key : α → String) (val : α → V)
    (L : List α) (m : List (String × V)) (k : String) (x : V)
    (hm : m.lookup k = some x) (hL : ∀ g ∈ L, key g = k → val g = x) :
    (L.foldl (fun m g => GoMap.set m (key g) (val g)) m).lookup k = some x := by
  induction L generalizing m with
  | nil => exact hm
  | cons g rest ih =>
    rw [List.foldl_cons]
    apply ih
    · rw [GoMap.lookup_set]
      by_cases hk : k = key g
      · rw [if_pos hk, hL g (List.mem_cons_self _ _) hk.symm]
      · rw [if_neg hk, hm]
    · exact fun g' hg' => hL g' (List.mem_cons_of_mem _ hg')

theorem GoMap.lookup_foldl_set_mem {α V : Type} (key : α → String) (val : α → V)
    (L : List α) (m : List (String × V)) (f : α) (hf : f ∈ L)
    (hL : ∀ g ∈ L, key g = key f → val g = val f) :
    (L.foldl (fun m g => GoMap.set m (key g) (val g)) m).lookup (key f) = some (val f) := by
  induction L generalizing m with
  | nil => simp at hf
  | cons g rest ih =>
    rw [List.foldl_cons]
    by_cases hmem : f ∈ rest
    · exact ih _ hmem (fun g' hg' => hL g' (List.mem_cons_of_mem _ hg'))
    · have hfg : f = g := by
        rcases List.mem_cons.mp hf with h | h
        · exact h
        · exact absurd h hmem
      subst hfg
      apply GoMap.lookup_foldl_set_stable
      · rw [GoMap.lookup_set, if_pos rfl]
      · exact fun g' hg' => hL g' (List.mem_cons_of_mem _ hg')

theorem svc.Command_viper {σ : Type} (t : CaseTable) (s : svc.Service σ) (v₀ : viper.Viper)
    (declared : List pflag.Flag) (h : svc.Command t s = some (v₀, declared)) :
    v₀ = viper.AutomaticEnv (viper.SetEnvPrefix viper.New s.Name) := by
  unfold svc.Command at h
  simp only [] at h
  split at h
  · cases h
  · split at h
    · cases h
    · split at h
      · cases h
      · cases h
        rfl

theorem svc.bound_eq {σ : Type} (t : CaseTable) (s : svc.Service σ)
    (passed : List (String × String)) (v₀ v : viper.Viper) (declared : List pflag.Flag)
    (hcmd : svc.Command t s = some (v₀, declared))
    (hbound : svc.Command.bound t s passed = some v) :
    ∃ flags, pflag.FlagSet.Parse (declared ++ [cobra.helpFlag]) passed = .ok flags
      ∧ v = { v₀ with
              pflags := (pflag.FlagSet.VisitAll flags).foldl
                (fun m g => GoMap.set m (strings.ToLower t g.Name)
                  ((pflag.FlagSet.Lookup flags g.Name).getD g))
                v₀.pflags } := by
  unfold svc.Command.bound at hbound
  rw [hcmd] at hbound
  simp only [] at hbound
  split at hbound
  · cases hbound
  · cases hp : pflag.FlagSet.Parse (declared ++ [cobra.helpFlag]) passed with
    | error err => rw [hp] at hbound; cases hbound
    | ok flags =>
      rw [hp] at hbound
      simp only [svc.PreRunE_eq] at hbound
      split at hbound
      · cases hbound
        exact ⟨flags, rfl, rfl⟩
      · cases hbound

theorem viper.parentKeysFrom_eq_nil (before rest : List Char) (h : '.' ∉ rest) :
    viper.parentKeysFrom before rest = [] := by
  induction rest generalizing before with
  | nil => rfl
  | cons c rest ih =>
    simp only [List.mem_cons, not_or] at h
    unfold viper.parentKeysFrom
    rw [if_neg (fun hc => h.1 hc.symm)]
    exact ih _ h.2

/-- A key without a key delimiter has no parent key. -/
theorem viper.parentKeys_eq_nil (key : String) (h : '.' ∉ key.data) :
    viper.parentKeys key = [] :=
  viper.parentKeysFrom_eq_nil [] key.data h

/-- The value of `viper.Get` for a flat key bound to a flag, with the
environment read automatically under a prefix. -/
theorem viper.Get_of_bound (t : CaseTable) (v : viper.Viper) (environ : List String)
    (name : String) (f : pflag.Flag)
    (hauto : v.automaticEnvApplied = true) (hnonempty : v.envPrefix ≠ "")
    (hflat : '.' ∉ (strings.ToLower t name).data)
    (hflag : v.pflags.lookup (strings.ToLower t name) = some f) :
    viper.Get t v environ name
      = if f.Changed = true then some f.Value
        else
          match viper.getEnv environ
              (strings.ToUpper t (v.envPrefix ++ "_" ++ strings.ToLower t name)) with
          | some val => some val
          | none => some f.Value := by
  have hflatmap : viper.isPathShadowedInFlatMap v (strings.ToLower t name) = false := by
    simp [viper.isPathShadowedInFlatMap, viper.parentKeys_eq_nil _ hflat]
  have hautoenv : viper.isPathShadowedInAutoEnv t v environ (strings.ToLower t name) = false := by
    simp [viper.isPathShadowedInAutoEnv, viper.parentKeys_eq_nil _ hflat]
  unfold viper.Get viper.find
  simp only [hflag, hauto, if_true, hflatmap, hautoenv, viper.mergeWithEnvPrefix, if_pos hnonempty]
  cases hc : f.Changed with
  | true => simp [Option.filter, hc]
  | false =>
    simp only [Option.filter, hc, Bool.false_eq_true, if_false]
    cases viper.getEnv environ
        (strings.ToUpper t (v.envPrefix ++ "_" ++ strings.ToLower t name)) <;> simp

/-- C1 (amended): take a service with a non-empty name, a command line with
which cobra reaches `RunE`, and a declared flag, as `FlagSet.String` makes it
(its value is its default, it is not changed), such that no other flag of
the command (the declared flags and the flag `help` of cobra) has its name
up to letter case, its name in lower case (the key of viper) has no key
delimiter `.`, and its name keeps its upper-case form when put in lower case
first; `unicode.ToUpper` is idempotent. Then the bound value (the value of
`viper.Get` once the flags are parsed and bound) is the value passed last
for the flag when the flag was passed; otherwise the value of the derived
environment variable when that is set and not empty; otherwise (the
variable not set, or set to the empty string) the default of the flag. -/
theorem C1_binding_precedence {σ : Type} (t : CaseTable) (s : svc.Service σ)
    (passed : List (String × String)) (environ : List String)
    (v₀ v : viper.Viper) (declared : List pflag.Flag) (f : pflag.Flag)
    (hcmd : svc.Command t s = some (v₀, declared))
    (hbound : svc.Command.bound t s passed = some v)
    (hf : f ∈ declared)
    (hfresh : f.Changed = false ∧ f.Value = f.DefValue)
    (hcase : ∀ g ∈ declared ++ [cobra.helpFlag],
      strings.ToLower t g.Name = strings.ToLower t f.Name → g = f)
    (hname : s.Name ≠ "")
    (hidem : ∀ r, unicode.ToUpper t (unicode.ToUpper t r) = unicode.ToUpper t r)
    (hfold : strings.ToUpper t (strings.ToLower t f.Name) = strings.ToUpper t f.Name)
    (hflat : '.' ∉ (strings.ToLower t f.Name).data) :
    (∀ value, passed.reverse.lookup f.Name = some value →
        viper.Get t v environ f.Name = some value)
      ∧ (f.Name ∉ passed.map Prod.fst →
          os.LookupEnv environ (svc.envKey t (svc.envPrefix t s.Name) f.Name) = none →
          viper.Get t v environ f.Name = some f.DefValue)
      ∧ (f.Name ∉ passed.map Prod.fst → ∀ value, value ≠ "" →
          os.LookupEnv environ (svc.envKey t (svc.envPrefix t s.Name) f.Name) = some value →
          viper.Get t v environ f.Name = some value)
      ∧ (f.Name ∉ passed.map Prod.fst →
          os.LookupEnv environ (svc.envKey t (svc.envPrefix t s.Name) f.Name) = some "" →
          viper.Get t v environ f.Name = some f.DefValue) := by
  obtain ⟨flags, hparse, hv⟩ := svc.bound_eq t s passed v₀ v declared hcmd hbound
  have hv₀ := svc.Command_viper t s v₀ declared hcmd
  have hflags := pflag.Parse_eq passed (declared ++ [cobra.helpFlag]) flags hparse
  -- the flag as parsed
  have hname' : (passed.foldl (fun g nv => g.assign nv.1 nv.2) f).Name = f.Name :=
    pflag.foldl_assign_Name passed f
  have hmem : passed.foldl (fun g nv => g.assign nv.1 nv.2) f ∈ flags := by
    rw [hflags]
    exact List.mem_map_of_mem _ (List.mem_append_left _ hf)
  have honly : ∀ g' ∈ flags,
      strings.ToLower t g'.Name
          = strings.ToLower t (passed.foldl (fun g nv => g.assign nv.1 nv.2) f).Name →
        g' = passed.foldl (fun g nv => g.assign nv.1 nv.2) f := by
    intro g' hg' hkey
    rw [hflags, List.mem_map] at hg'
    obtain ⟨g, hg, rfl⟩ := hg'
    simp only [] at hkey ⊢
    rw [pflag.foldl_assign_Name, pflag.foldl_assign_Name] at hkey
    rw [hcase g hg hkey]
  have hlookup : pflag.FlagSet.Lookup flags (passed.foldl (fun g nv => g.assign nv.1 nv.2) f).Name
      = some (passed.foldl (fun g nv => g.assign nv.1 nv.2) f) :=
    pflag.Lookup_of_mem flags _ hmem (fun h hh hn => honly h hh (by rw [hn]))
  have hbind : v.pflags.lookup (strings.ToLower t f.Name)
      = some (passed.foldl (fun g nv => g.assign nv.1 nv.2) f) := by
    rw [hv]
    have := GoMap.lookup_foldl_set_mem (fun g : pflag.Flag => strings.ToLower t g.Name)
      (fun g => (pflag.FlagSet.Lookup flags g.Name).getD g)
      (pflag.FlagSet.VisitAll flags) v₀.pflags
      (passed.foldl (fun g nv => g.assign nv.1 nv.2) f)
      ((List.mem_insertionSort _).mpr hmem)
      (by
        intro g' hg' hkey
        have hg'' : g' ∈ flags := (List.mem_insertionSort _).mp hg'
        rw [honly g' hg'' hkey])
    rw [hname'] at hlookup
    simp only [hname', hlookup, Option.getD_some] at this
    exact this
  have hauto : v.automaticEnvApplied = true := by
    rw [hv, hv₀]; rfl
  have hpre : v.envPrefix = s.Name := by
    rw [hv, hv₀]
    simp [viper.AutomaticEnv, viper.SetEnvPrefix, hname]
  have hget := viper.Get_of_bound t v environ f.Name _ hauto (by rw [hpre]; exact hname) hflat
    hbind
  have hkey : strings.ToUpper t (v.envPrefix ++ "_" ++ strings.ToLower t f.Name)
      = svc.envKey t (svc.envPrefix t s.Name) f.Name := by
    rw [hpre, svc.envKey_eq, svc.envPrefix, strings.ToUpper_idem t hidem,
      strings.ToUpper_append, strings.ToUpper_append, strings.ToUpper_underscore, hfold]
  rw [hkey] at hget
  refine ⟨?_, ?_, ?_, ?_⟩
  · intro value hvalue
    obtain ⟨h1, h2⟩ := pflag.foldl_assign_passed passed f value hvalue
    rw [hget, if_pos h2, h1]
  · intro hnot henv
    rw [pflag.foldl_assign_not_passed passed f hnot] at hget
    rw [hget, hfresh.1, hfresh.2]
    simp [viper.getEnv, henv]
  · intro hnot value hne henv
    rw [pflag.foldl_assign_not_passed passed f hnot] at hget
    rw [hget, hfresh.1]
    simp [viper.getEnv, henv, hne]
  · intro hnot henv
    rw [pflag.foldl_assign_not_passed passed f hnot] at hget
    rw [hget, hfresh.1, hfresh.2]
    simp [viper.getEnv, henv]

/-- C1 for the service `ident`, its flag `listen_address` with the default
`127.0.0.1:6000`, the variable `IDENT_LISTEN_ADDRESS=0.0.0.0:9000` and no
flag passed: the bound value is `0.0.0.0:9000`. -/
theorem C1_binding_precedence_witness :
    ∃ v, svc.Command.bound CaseTable.ascii (identsvc.New fixture.world) [] = some v
      ∧ viper.Get CaseTable.ascii v ["IDENT_LISTEN_ADDRESS=0.0.0.0:9000"] "listen_address"
          = some "0.0.0.0:9000" := by
  refine ⟨_, rfl, ?_⟩
  exact (C1_binding_precedence CaseTable.ascii (identsvc.New fixture.world) []
      ["IDENT_LISTEN_ADDRESS=0.0.0.0:9000"] _ _ _
      { Name := "listen_address", Usage := "$\x7bIDENT_LISTEN_ADDRESS\x7d",
        Value := "127.0.0.1:6000", DefValue := "127.0.0.1:6000", Changed := false }
      rfl rfl (by decide) ⟨rfl, rfl⟩ (by decide) (by decide) unicode.ToUpper_ascii_idem
      (by decide) (by decide)).2.2.1 (by decide) "0.0.0.0:9000" (by decide) (by decide)

/-- C1 (as stated) fails: for the service `ident` with the variable
`IDENT_LISTEN_ADDRESS` set, to the empty string, and no flag passed, the
bound value of `listen_address` is the default, not the value of the
variable. -/
theorem C1_counterexample :
    ∃ v, svc.Command.bound CaseTable.ascii (identsvc.New fixture.world) [] = some v
      ∧ os.LookupEnv ["IDENT_LISTEN_ADDRESS="]
          (svc.envKey CaseTable.ascii (svc.envPrefix CaseTable.ascii "ident") "listen_address")
          = some ""
      ∧ viper.Get CaseTable.ascii v ["IDENT_LISTEN_ADDRESS="] "listen_address"
          = some "127.0.0.1:6000" :=
  ⟨_, rfl, by decide, by decide⟩

/-- C5 for the service `vault`: its key `client_secret` maps to the marker
when `hunter2` is passed for it, and the snapshot is the same when `swordfish`
is passed instead. -/
theorem C5_secret_redaction_witness :
    ∃ v₁ v₂, svc.Command.bound CaseTable.ascii fixture.vault [("client_secret", "hunter2")] = some v₁
      ∧ svc.Command.bound CaseTable.ascii fixture.vault [("client_secret", "swordfish")] = some v₂
      ∧ viper.Get CaseTable.ascii v₁ [] "client_secret" = some "hunter2"
      ∧ (svc.run.configDump CaseTable.ascii "VAULT" v₁ []).lookup "client_secret"
          = some (some "%%%_SECRET_MASKED_%%%")
      ∧ svc.run.configDump CaseTable.ascii "VAULT" v₁ []
          = svc.run.configDump CaseTable.ascii "VAULT" v₂ [] := by
  refine ⟨_, _, rfl, rfl, by decide, ?_, ?_⟩
  · exact (C5_secret_redaction CaseTable.ascii "VAULT").1 _ [] "client_secret" (by decide)
      ⟨"client_", "secret", "", by decide, by decide⟩
  · refine (C5_secret_redaction CaseTable.ascii "VAULT").2 _ _ [] [] (by decide) ?_
    intro k hk hs
    have hk' : k = "client_secret" ∨ k = "help" ∨ k = "log_encoding" ∨ k = "log_level" := by
      rw [show viper.AllKeys _ = ["client_secret", "help", "log_encoding", "log_level"]
        from by decide] at hk
      simpa using hk
    rcases hk' with rfl | rfl | rfl | rfl
    · exact absurd ⟨"client_", "secret", "", by decide, by decide⟩ hs
    · exact ⟨by decide, by decide⟩
    · exact ⟨by decide, by decide⟩
    · exact ⟨by decide, by decide⟩

/-- C6 for the service `ident`, with `listen_tls_cert` passed and nothing in
the environment: `listen_tls_cert` has its value as entry, `listen_tls_key`,
which is not set, has no entry. -/
theorem C6_unset_keys_omitted_witness :
    ∃ v, svc.Command.bound CaseTable.ascii (identsvc.New fixture.world)
          [("listen_tls_cert", "/etc/cert.pem")] = some v
      ∧ (svc.run.configDump CaseTable.ascii "IDENT" v []).lookup "listen_tls_key" = none
      ∧ ∃ value, viper.Get CaseTable.ascii v [] "listen_tls_cert" = some value
          ∧ (svc.run.configDump CaseTable.ascii "IDENT" v []).lookup "listen_tls_cert"
              = some (some value) := by
  have hnot : ∀ k : String, (∀ a ∈ k.data.tails, ¬ "secret".data.isPrefixOf
      (a.map (unicode.ToLower CaseTable.ascii)) = true) →
      ¬ spec.containsSecret CaseTable.ascii k := by
    intro k hk hs
    obtain ⟨a, m, b, rfl, hm⟩ := hs
    have hm' : List.map (unicode.ToLower CaseTable.ascii) m.data = "secret".data :=
      congrArg String.data hm
    refine hk (m.data ++ b.data) ?_ ?_
    · rw [List.mem_tails]
      exact ⟨a.data, by simp [String.data_append]⟩
    · rw [List.map_append, hm', List.isPrefixOf_iff_prefix]
      exact List.prefix_append _ _
  refine ⟨_, rfl, ?_, ?_⟩
  · exact (C6_unset_keys_omitted CaseTable.ascii "IDENT" _ []).1 "listen_tls_key"
      (hnot _ (by decide)) (by decide)
  · exact (C6_unset_keys_omitted CaseTable.ascii "IDENT" _ []).2.1 "listen_tls_cert"
      (by decide) (hnot _ (by decide)) (by decide)

/-- The steps of `run` that are fatal: an error of `initLogger` or of
`s.ValidateConfig` is returned and `s.Run` is not invoked. -/
theorem svc.run_fatal_steps {σ : Type} (t : CaseTable)
    (Build : zap.Config → Except GoError zap.Logger)
    (s : svc.Service σ) (c : σ) (v : viper.Viper) (environ : List String) :
    (∀ err, svc.initLogger t Build
        (viper.Unmarshal svc.globalConfig.decode t v environ { LogEncoding := "", LogLevel := "" }).1
          = .error err →
        (svc.run t Build s c v environ).err = some err
          ∧ (svc.run t Build s c v environ).served = none)
      ∧ (∀ l err, svc.initLogger t Build
        (viper.Unmarshal svc.globalConfig.decode t v environ { LogEncoding := "", LogLevel := "" }).1
          = .ok l →
        s.ValidateConfig (viper.Unmarshal s.Configure t v environ c).1 = some err →
        (svc.run t Build s c v environ).err = some err
          ∧ (svc.run t Build s c v environ).served = none) := by
  constructor
  · intro err h
    have h' : svc.initLogger t Build
        (svc.globalConfig.decode (viper.AllSettings t v environ)
          { LogEncoding := "", LogLevel := "" }).1 = .error err := h
    simp only [svc.run, viper.Unmarshal, svc.globalConfig.decode] at h' ⊢
    simp only [h', and_self]
  · intro l err h hval
    have h' : svc.initLogger t Build
        (svc.globalConfig.decode (viper.AllSettings t v environ)
          { LogEncoding := "", LogLevel := "" }).1 = .ok l := h
    have hval' : s.ValidateConfig (s.Configure (viper.AllSettings t v environ) c).1 = some err :=
      hval
    simp only [svc.run, viper.Unmarshal, svc.globalConfig.decode] at h' ⊢
    simp only [h', hval', and_self]

/-! ### The harness on the example service, and the edges of the binding -/

/-- The example service started with its certificate and key passed and
`IDENT_LISTEN_ADDRESS` set: `run` hands `s.Run` the configuration with the
address of the environment, and returns what `s.Run` returns. -/
theorem identsvc.run_with_environment :
    ∃ v, svc.Command.bound CaseTable.ascii (identsvc.New fixture.world)
          [("listen_tls_cert", "cert.pem"), ("listen_tls_key", "key.pem")] = some v
      ∧ (svc.run CaseTable.ascii (fun c => .ok ⟨c⟩) (identsvc.New fixture.world)
            { ListenAddress := "", ListenTLSCert := "", ListenTLSKey := "" } v
            ["IDENT_LISTEN_ADDRESS=0.0.0.0:9000"]).served
          = some { ListenAddress := "0.0.0.0:9000", ListenTLSCert := "cert.pem",
                   ListenTLSKey := "key.pem" }
      ∧ (svc.run CaseTable.ascii (fun c => .ok ⟨c⟩) (identsvc.New fixture.world)
            { ListenAddress := "", ListenTLSCert := "", ListenTLSKey := "" } v
            ["IDENT_LISTEN_ADDRESS=0.0.0.0:9000"]).err
          = some (.errorString "http: Server closed") :=
  ⟨_, rfl, by decide, by decide⟩

/-- The example service started with `log_encoding` set to `xml`: `run`
returns the error of `initLogger` and does not invoke `s.Run`. -/
theorem identsvc.run_with_unknown_encoding :
    ∃ v, svc.Command.bound CaseTable.ascii (identsvc.New fixture.world)
          [("log_encoding", "xml")] = some v
      ∧ (svc.run CaseTable.ascii (fun c => .ok ⟨c⟩) (identsvc.New fixture.world)
            { ListenAddress := "", ListenTLSCert := "", ListenTLSKey := "" } v []).err
          = some (.errorString "Unknown log_encoding: 'xml' must be json or console")
      ∧ (svc.run CaseTable.ascii (fun c => .ok ⟨c⟩) (identsvc.New fixture.world)
            { ListenAddress := "", ListenTLSCert := "", ListenTLSKey := "" } v []).served
          = none :=
  ⟨_, rfl, by decide, by decide⟩

/-- Two flags whose names differ in letter case only share one key of viper:
for the service `twins` with `Foo` passed, the value bound under `Foo` is the
default of `foo`, not the value passed for `Foo`. -/
theorem svc.bound_case_variants :
    ∃ v, svc.Command.bound CaseTable.ascii fixture.twins [("Foo", "x")] = some v
      ∧ viper.Get CaseTable.ascii v [] "Foo" = some "b" :=
  ⟨_, rfl, by decide⟩

/-- With an empty service name viper reads a flag from the variable without
the `_` in front: for the service `nameless`, the derived key of `listen` is
`_LISTEN`, and the value bound is the default when `_LISTEN` is set and the
value of `LISTEN` when that is set. -/
theorem svc.bound_empty_name :
    ∃ v, svc.Command.bound CaseTable.ascii fixture.nameless [] = some v
      ∧ svc.envKey CaseTable.ascii (svc.envPrefix CaseTable.ascii "") "listen" = "_LISTEN"
      ∧ viper.Get CaseTable.ascii v ["_LISTEN=:8080"] "listen" = some ":80"
      ∧ viper.Get CaseTable.ascii v ["LISTEN=:8080"] "listen" = some ":8080" :=
  ⟨_, rfl, by decide, by decide, by decide⟩

/-- A declared flag whose name is `help` up to letter case shares viper's key
with cobra's flag `help`, which is bound after it: for the service `helper`
with `Help` passed, the value bound under `Help` is that of cobra's flag. -/
theorem svc.bound_help_variant :
    ∃ v, svc.Command.bound CaseTable.ascii fixture.helper [("Help", "x")] = some v
      ∧ viper.Get CaseTable.ascii v [] "Help" = some "false" :=
  ⟨_, rfl, by decide⟩

/-- A flag whose key has a parent key bound to a flag is shadowed: for the
service `nest`, the key `tls.cert` has no value unless the flag is passed. -/
theorem svc.bound_nested_key :
    (∃ v, svc.Command.bound CaseTable.ascii fixture.nest [] = some v
      ∧ viper.Get CaseTable.ascii v [] "tls.cert" = none
      ∧ viper.Get CaseTable.ascii v ["NEST_TLS.CERT=other.pem"] "tls.cert" = none)
    ∧ ∃ v, svc.Command.bound CaseTable.ascii fixture.nest [("tls.cert", "x.pem")] = some v
      ∧ viper.Get CaseTable.ascii v [] "tls.cert" = some "x.pem" :=
  ⟨⟨_, rfl, by decide, by decide⟩, ⟨_, rfl, by decide⟩⟩
